import Mathlib

/-!
# static_string.hpp: fixed-length, null-terminated character sequences

A shallow embedding of `src/static_string.hpp` (namespace `ak_toolkit::static_str`).

* A `char` is its integer value; the terminator is `0`.
* `const char (&)[n]` and `char _array[n]` are lists of exactly `n` characters (`Buf n`).
* The integer template parameters `N`, `M` are natural numbers: `char[N + 1]` is an array
  type only for `N ≥ 0`.
* The build switch `NDEBUG` is a Boolean parameter (`false`: checks enabled).
* What a C++ expression can do besides yielding a value is a `Failure`:
  a failed `assert` (`contract_violation`), a read outside an array
  (`undefined_behaviour`), or a program that does not compile because no constructor
  is viable or an initializer list is too long (`ill_formed`).
-/

namespace ak_toolkit.static_str

/-- The ways an expression of the header can fail to yield a value. -/
inductive Failure where
  | contract_violation
  | undefined_behaviour
  | ill_formed
  deriving DecidableEq, Repr

/-- Outcome of evaluating an expression of the header. -/
abbrev Result (α : Type) := Except Failure α

/-- A character, as the integer it promotes to. -/
abbrev char := Int

/-- An array of exactly `n` characters: `char[n]`. -/
abbrev Buf (n : Nat) := { xs : List char // xs.length = n }

/-- Built-in subscript `a[i]` on an array with an `int` index: defined inside the array,
undefined behaviour outside of it. -/
def subscript (a : List char) (i : Int) : Result char :=
  if i < 0 then .error .undefined_behaviour
  else
    match a[i.toNat]? with
    | some c => .ok c
    | none => .error .undefined_behaviour

/-- Aggregate initialisation of `char[n]` from a braced list: missing trailing elements
are zero, and more than `n` initializers do not compile. -/
def aggregate_init (n : Nat) (xs : List char) : Result (Buf n) :=
  if h : xs.length ≤ n then
    .ok ⟨xs ++ List.replicate (n - xs.length) 0, by simp; omega⟩
  else .error .ill_formed

namespace detail

/-- The pack `int... I` of `int_sequence<I...>`. -/
abbrev int_sequence := List Int

/-- Source lines 44-48: `cat<i, int_sequence<I...>>::type = int_sequence<I..., i>`. -/
def cat (i : Int) (T : int_sequence) : int_sequence := T ++ [i]

/-- Source lines 50-61: `make_int_sequence_<0>` is empty and `make_int_sequence_<I>` is
`cat<I - 1, make_int_sequence_<I - 1>::type>::type`. -/
def make_int_sequence_ : Nat → int_sequence
  | 0 => []
  | I + 1 => cat (((I + 1 : Nat) : Int) - 1) (make_int_sequence_ I)

/-- Source lines 63-64. -/
def make_int_sequence (I : Nat) : int_sequence := make_int_sequence_ I

end detail

/-- Source lines 70-74: with `NDEBUG` the expression alone; otherwise the expression when
the check holds and a failed `assert` when it does not. -/
def AK_TOOLKIT_ASSERTED_EXPRESSION {α : Type} (NDEBUG : Bool) (CHECK : Bool)
    (EXPR : Result α) : Result α :=
  if NDEBUG then EXPR
  else if CHECK then EXPR else .error .contract_violation

/-- Source lines 8-26: the conversion generated for settings 1 to 4 is a sequence of the
`N` characters starting at `c_str()`; for setting 0 and for an undefined switch nothing
is generated (and no other setting defines the conversion either). -/
def AK_TOOLKIT_STRING_VIEW_OPERATIONS (AK_TOOLKIT_CONFIG_USING_STRING_VIEW : Option Int)
    (c_str : List char) (N : Nat) : Option (List char) :=
  match AK_TOOLKIT_CONFIG_USING_STRING_VIEW with
  | none => none
  | some v =>
    if v = 0 then none
    else if v = 1 then some (c_str.take N)
    else if v = 2 then some (c_str.take N)
    else if v = 3 then some (c_str.take N)
    else if v = 4 then some (c_str.take N)
    else none

/-- Source lines 79-90: `string_literal<N>` holds a reference to `const char [N + 1]`. -/
structure string_literal (N : Nat) where
  _lit : Buf (N + 1)
  deriving DecidableEq

namespace string_literal

/-- Source line 84: the constructor, `_lit(ASSERTED(lit[N] == 0, lit))`. -/
def ctor (NDEBUG : Bool) (N : Nat) (lit : Buf (N + 1)) : Result (string_literal N) :=
  AK_TOOLKIT_ASSERTED_EXPRESSION NDEBUG
    (decide (lit.val.get ⟨N, by rw [lit.property]; exact Nat.lt_succ_self N⟩ = 0))
    (.ok ⟨lit⟩)

/-- Source line 85: `operator[](int i)`, `ASSERTED(i >= 0 && i < N, _lit[i])`. -/
def operator_subscript {N : Nat} (NDEBUG : Bool) (s : string_literal N) (i : Int) :
    Result char :=
  AK_TOOLKIT_ASSERTED_EXPRESSION NDEBUG (decide (i ≥ 0) && decide (i < (N : Int)))
    (subscript s._lit.val i)

/-- Source line 87: `size()`. -/
def size {N : Nat} (_s : string_literal N) : Nat := N

/-- Source line 88: `c_str()`, the `N + 1` characters referred to. -/
def c_str {N : Nat} (s : string_literal N) : List char := s._lit.val

/-- Source line 86: the string-view conversion, `view(c_str(), N)`. -/
def string_view {N : Nat} (config : Option Int) (s : string_literal N) :
    Option (List char) :=
  AK_TOOLKIT_STRING_VIEW_OPERATIONS config s.c_str N

end string_literal

/-- Source lines 95-99: `literal(lit)` is `string_literal<N_PLUS_1 - 1>(lit)`; there is
no array type of size zero. -/
def literal (NDEBUG : Bool) (N_PLUS_1 : Nat) (lit : Buf N_PLUS_1) :
    Result (string_literal (N_PLUS_1 - 1)) :=
  if h : 0 < N_PLUS_1 then
    string_literal.ctor NDEBUG (N_PLUS_1 - 1) ⟨lit.val, by rw [lit.property]; omega⟩
  else .error .ill_formed

/-- Source lines 104-107: `array_string<N>` stores `char _array[N + 1]`. -/
structure array_string (N : Nat) where
  _array : Buf (N + 1)
  deriving DecidableEq

/-- Expansion `s[I]...` of a pack of subscript calls inside a braced list: evaluated
left to right, stopping at the first call that fails. -/
def pack_expansion (f : Int → Result char) : detail.int_sequence → Result (List char)
  | [] => .ok []
  | i :: is =>
    match f i with
    | .error e => .error e
    | .ok c =>
      match pack_expansion f is with
      | .error e => .error e
      | .ok cs => .ok (c :: cs)

namespace array_string

/-- Source line 147: `size()`. -/
def size {N : Nat} (_s : array_string N) : Nat := N

/-- Source line 149: `c_str()`, the `N + 1` stored characters. -/
def c_str {N : Nat} (s : array_string N) : List char := s._array.val

/-- Source line 152: `operator[](int i)`, `ASSERTED(i >= 0 && i < N, _array[i])`. -/
def operator_subscript {N : Nat} (NDEBUG : Bool) (s : array_string N) (i : Int) :
    Result char :=
  AK_TOOLKIT_ASSERTED_EXPRESSION NDEBUG (decide (i ≥ 0) && decide (i < (N : Int)))
    (subscript s._array.val i)

/-- Source line 151: the string-view conversion, `view(c_str(), N)`. -/
def string_view {N : Nat} (config : Option Int) (s : array_string N) :
    Option (List char) :=
  AK_TOOLKIT_STRING_VIEW_OPERATIONS config s.c_str N

/-- Wraps the initialised array of a constructor into the value. -/
def of_init (N : Nat) (xs : List char) : Result (array_string N) :=
  match aggregate_init (N + 1) xs with
  | .error e => .error e
  | .ok a => .ok ⟨a⟩

/-- Source lines 111-115: private constructor from two literal references,
`_array{l[Il]..., r[Ir]..., 0}`. -/
def private_ctor_literals (NDEBUG : Bool) (N : Nat) {M K : Nat}
    (l : string_literal M) (r : string_literal K) (Il Ir : detail.int_sequence) :
    Result (array_string N) :=
  match pack_expansion (l.operator_subscript NDEBUG) Il with
  | .error e => .error e
  | .ok ls =>
    match pack_expansion (r.operator_subscript NDEBUG) Ir with
    | .error e => .error e
    | .ok rs => of_init N (ls ++ rs ++ [0])

/-- Source lines 117-121: private constructor from one literal reference,
`_array{l[Il]..., 0}`. -/
def private_ctor_literal (NDEBUG : Bool) (N : Nat) (l : string_literal N)
    (Il : detail.int_sequence) : Result (array_string N) :=
  match pack_expansion (l.operator_subscript NDEBUG) Il with
  | .error e => .error e
  | .ok ls => of_init N (ls ++ [0])

/-- Source lines 123-127: private constructor from two buffer values,
`_array{l[Il]..., r[Ir]..., 0}`. -/
def private_ctor_arrays (NDEBUG : Bool) (N : Nat) {M K : Nat}
    (l : array_string M) (r : array_string K) (Il Ir : detail.int_sequence) :
    Result (array_string N) :=
  match pack_expansion (l.operator_subscript NDEBUG) Il with
  | .error e => .error e
  | .ok ls =>
    match pack_expansion (r.operator_subscript NDEBUG) Ir with
    | .error e => .error e
    | .ok rs => of_init N (ls ++ rs ++ [0])

/-- Source lines 136-139: the converting constructor `array_string(string_literal<N> l)`. -/
def ctor_literal (NDEBUG : Bool) (N : Nat) (l : string_literal N) : Result (array_string N) :=
  private_ctor_literal NDEBUG N l (detail.make_int_sequence N)

end array_string

/-- An argument of a two-argument construction `array_string<N>(l, r)`: a literal
reference or a buffer value, of its own length. -/
inductive Operand where
  | lit (M : Nat) (l : string_literal M)
  | arr (M : Nat) (a : array_string M)

namespace array_string

/-- Source lines 130-134: the public constructor template on `M` with
`enable_if<(M < N)>`, taking `(string_literal<M> l, string_literal<N - M> r)`. `M` is
deduced from the first argument; the constructor is viable only when the guard holds and
the second argument has the length `N - M`. -/
def ctor_literals (NDEBUG : Bool) (N : Nat) {M K : Nat}
    (l : string_literal M) (r : string_literal K) : Result (array_string N) :=
  if M < N ∧ K = N - M then
    private_ctor_literals NDEBUG N l r (detail.make_int_sequence M)
      (detail.make_int_sequence (N - M))
  else .error .ill_formed

/-- Source lines 141-145: the public constructor template on `M` with
`enable_if<(M < N)>`, taking `(array_string<M> const& l, array_string<N - M> const& r)`,
viable under the same conditions. -/
def ctor_arrays (NDEBUG : Bool) (N : Nat) {M K : Nat}
    (l : array_string M) (r : array_string K) : Result (array_string N) :=
  if M < N ∧ K = N - M then
    private_ctor_arrays NDEBUG N l r (detail.make_int_sequence M)
      (detail.make_int_sequence (N - M))
  else .error .ill_formed

/-- The expression `array_string<N>(l, r)`: overload resolution among the two public
two-argument constructors. `M` is deduced from the first argument alone (`N - M` is not
deduced), so the first argument selects the constructor of its own kind, and the second
argument may be converted to the parameter type `array_string<N - M>` or
`string_literal<N - M>`. A literal reference converts to a buffer value of the same
length through the non-explicit converting constructor of line 136; nothing converts a
buffer value to a literal reference. So a buffer value followed by a literal reference
of length `N - M` converts the latter and uses the constructor of lines 141-145, and a
literal reference followed by a buffer value has no viable constructor: the expression
does not compile. -/
def ctor_two (NDEBUG : Bool) (N : Nat) (l r : Operand) : Result (array_string N) :=
  match l, r with
  | .lit _ l, .lit _ r => ctor_literals NDEBUG N l r
  | .arr _ l, .arr _ r => ctor_arrays NDEBUG N l r
  | .arr M l, .lit K r =>
    if M < N ∧ K = N - M then
      match ctor_literal NDEBUG K r with
      | .error e => .error e
      | .ok ar => ctor_arrays NDEBUG N l ar
    else .error .ill_formed
  | .lit _ _, .arr _ _ => .error .ill_formed

end array_string

/-- Source lines 158-162: `string_literal<N1> + string_literal<N2>`. -/
def operator_plus_literal_literal (NDEBUG : Bool) {N1 N2 : Nat}
    (l : string_literal N1) (r : string_literal N2) : Result (array_string (N1 + N2)) :=
  array_string.ctor_two NDEBUG (N1 + N2) (.lit N1 l) (.lit N2 r)

/-- Source lines 164-168: `const char (&)[N1_1] + string_literal<N2>`; the left operand
is wrapped by `string_literal<N1_1 - 1>(l)`, the expression that `literal(l)` returns. -/
def operator_plus_raw_literal (NDEBUG : Bool) {N1_1 N2 : Nat}
    (l : Buf N1_1) (r : string_literal N2) : Result (array_string (N1_1 - 1 + N2)) :=
  match literal NDEBUG N1_1 l with
  | .error e => .error e
  | .ok sl => array_string.ctor_two NDEBUG (N1_1 - 1 + N2) (.lit (N1_1 - 1) sl) (.lit N2 r)

/-- Source lines 170-174: `string_literal<N1> + const char (&)[N2_1]`; the right operand
is wrapped by `string_literal<N2_1 - 1>(r)`, the expression that `literal(r)` returns. -/
def operator_plus_literal_raw (NDEBUG : Bool) {N1 N2_1 : Nat}
    (l : string_literal N1) (r : Buf N2_1) : Result (array_string (N1 + N2_1 - 1)) :=
  match literal NDEBUG N2_1 r with
  | .error e => .error e
  | .ok sr => array_string.ctor_two NDEBUG (N1 + N2_1 - 1) (.lit N1 l) (.lit (N2_1 - 1) sr)

/-- Source lines 177-181: `array_string<N1> + string_literal<N2>`, converting the right
operand with `array_string<N2>(r)`. -/
def operator_plus_array_literal (NDEBUG : Bool) {N1 N2 : Nat}
    (l : array_string N1) (r : string_literal N2) : Result (array_string (N1 + N2)) :=
  match array_string.ctor_literal NDEBUG N2 r with
  | .error e => .error e
  | .ok ar => array_string.ctor_two NDEBUG (N1 + N2) (.arr N1 l) (.arr N2 ar)

/-- Source lines 183-187: `string_literal<N1> + array_string<N2>`, passing both operands
as they are. -/
def operator_plus_literal_array (NDEBUG : Bool) {N1 N2 : Nat}
    (l : string_literal N1) (r : array_string N2) : Result (array_string (N1 + N2)) :=
  array_string.ctor_two NDEBUG (N1 + N2) (.lit N1 l) (.arr N2 r)

/-- Source lines 189-193: `array_string<N1> + array_string<N2>`. -/
def operator_plus_array_array (NDEBUG : Bool) {N1 N2 : Nat}
    (l : array_string N1) (r : array_string N2) : Result (array_string (N1 + N2)) :=
  array_string.ctor_two NDEBUG (N1 + N2) (.arr N1 l) (.arr N2 r)

/-- Source lines 195-199: `const char (&)[N1_1] + array_string<N2>`, passing the wrapped
left operand and the right operand as it is. -/
def operator_plus_raw_array (NDEBUG : Bool) {N1_1 N2 : Nat}
    (l : Buf N1_1) (r : array_string N2) : Result (array_string (N1_1 - 1 + N2)) :=
  match literal NDEBUG N1_1 l with
  | .error e => .error e
  | .ok sl => array_string.ctor_two NDEBUG (N1_1 - 1 + N2) (.lit (N1_1 - 1) sl) (.arr N2 r)

/-- Source lines 201-205: `array_string<N1> + const char (&)[N2_1]`, wrapping and then
converting the right operand. -/
def operator_plus_array_raw (NDEBUG : Bool) {N1 N2_1 : Nat}
    (l : array_string N1) (r : Buf N2_1) : Result (array_string (N1 + N2_1 - 1)) :=
  match literal NDEBUG N2_1 r with
  | .error e => .error e
  | .ok sr =>
    match array_string.ctor_literal NDEBUG (N2_1 - 1) sr with
    | .error e => .error e
    | .ok ar => array_string.ctor_two NDEBUG (N1 + N2_1 - 1) (.arr N1 l) (.arr (N2_1 - 1) ar)

/-- The buffer value holding the characters `xs` and the terminator. -/
def array_string.of_chars (xs : List char) : array_string xs.length :=
  ⟨⟨xs ++ [0], by simp⟩⟩

/-- The array `xs` as an array of `xs.length` characters. -/
def Buf.of_list (xs : List char) : Buf xs.length := ⟨xs, rfl⟩


/-- The ways an `array_string<N>` value is produced: by the converting constructor, by
the two-argument construction, or as the result of one of the eight `operator+`
overloads. -/
inductive array_string.Produced : (N : Nat) → array_string N → Prop
  | by_ctor_literal (nd : Bool) (N : Nat) (l : string_literal N) (s : array_string N) :
      array_string.ctor_literal nd N l = .ok s → Produced N s
  | by_ctor_two (nd : Bool) (N : Nat) (l r : Operand) (s : array_string N) :
      array_string.ctor_two nd N l r = .ok s → Produced N s
  | by_plus_literal_literal (nd : Bool) (N1 N2 : Nat) (l : string_literal N1)
      (r : string_literal N2) (s : array_string (N1 + N2)) :
      operator_plus_literal_literal nd l r = .ok s → Produced (N1 + N2) s
  | by_plus_raw_literal (nd : Bool) (N1_1 N2 : Nat) (l : Buf N1_1)
      (r : string_literal N2) (s : array_string (N1_1 - 1 + N2)) :
      operator_plus_raw_literal nd l r = .ok s → Produced (N1_1 - 1 + N2) s
  | by_plus_literal_raw (nd : Bool) (N1 N2_1 : Nat) (l : string_literal N1)
      (r : Buf N2_1) (s : array_string (N1 + N2_1 - 1)) :
      operator_plus_literal_raw nd l r = .ok s → Produced (N1 + N2_1 - 1) s
  | by_plus_array_literal (nd : Bool) (N1 N2 : Nat) (l : array_string N1)
      (r : string_literal N2) (s : array_string (N1 + N2)) :
      operator_plus_array_literal nd l r = .ok s → Produced (N1 + N2) s
  | by_plus_literal_array (nd : Bool) (N1 N2 : Nat) (l : string_literal N1)
      (r : array_string N2) (s : array_string (N1 + N2)) :
      operator_plus_literal_array nd l r = .ok s → Produced (N1 + N2) s
  | by_plus_array_array (nd : Bool) (N1 N2 : Nat) (l : array_string N1)
      (r : array_string N2) (s : array_string (N1 + N2)) :
      operator_plus_array_array nd l r = .ok s → Produced (N1 + N2) s
  | by_plus_raw_array (nd : Bool) (N1_1 N2 : Nat) (l : Buf N1_1)
      (r : array_string N2) (s : array_string (N1_1 - 1 + N2)) :
      operator_plus_raw_array nd l r = .ok s → Produced (N1_1 - 1 + N2) s
  | by_plus_array_raw (nd : Bool) (N1 N2_1 : Nat) (l : array_string N1)
      (r : Buf N2_1) (s : array_string (N1 + N2_1 - 1)) :
      operator_plus_array_raw nd l r = .ok s → Produced (N1 + N2_1 - 1) s

/-- Source lines 50-61 read over `int`, the way the templates are instantiated: the
specialisation `make_int_sequence_<0>` is the empty sequence; the primary template
`make_int_sequence_<I>` fails its `static_assert` for `I < 0` and otherwise appends
`I - 1` to `make_int_sequence_<I - 1>::type`. `depth` bounds the nesting of
instantiations, and `none` says that the bound was reached before the recursion
ended. -/
def detail.make_int_sequence_at_depth : Nat → Int → Option (Result detail.int_sequence)
  | 0, _ => none
  | depth + 1, I =>
    if I = 0 then some (.ok [])
    else if I ≥ 0 then
      match detail.make_int_sequence_at_depth depth (I - 1) with
      | none => none
      | some (.error e) => some (.error e)
      | some (.ok T) => some (.ok (detail.cat (I - 1) T))
    else some (.error .ill_formed)

/-- The copy constructor `array_string<N>(s)` of a buffer value; the class declares
none, so it is the implicit one, which copies `_array`. -/
def array_string.ctor_copy {N : Nat} (s : array_string N) : Result (array_string N) :=
  .ok ⟨s._array⟩

/-! ## Concrete values used in the examples -/

namespace examples

/-- The buffer value "foo". -/
def foo : array_string 3 := ⟨⟨[102, 111, 111, 0], rfl⟩⟩

/-- The buffer value "bar". -/
def bar : array_string 3 := ⟨⟨[98, 97, 114, 0], rfl⟩⟩

/-- The empty buffer value "". -/
def empty : array_string 0 := ⟨⟨[0], rfl⟩⟩

/-- The raw literal "hello", six characters with its terminator. -/
def hello_raw : Buf 6 := ⟨[104, 101, 108, 108, 111, 0], rfl⟩

/-- The literal reference to "hello". -/
def hello : string_literal 5 := ⟨hello_raw⟩

/-- A raw buffer of four characters with a 0 in the middle: 'a', 0, 'b', 0. -/
def a0b_raw : Buf 4 := ⟨[97, 0, 98, 0], rfl⟩

/-- The literal reference to "ab". -/
def lit_ab : string_literal 2 := ⟨⟨[97, 98, 0], rfl⟩⟩

/-- The literal reference to "cd". -/
def lit_cd : string_literal 2 := ⟨⟨[99, 100, 0], rfl⟩⟩

/-- The buffer value "ab". -/
def ab : array_string 2 := ⟨⟨[97, 98, 0], rfl⟩⟩

/-- The buffer value "cd". -/
def cd : array_string 2 := ⟨⟨[99, 100, 0], rfl⟩⟩

/-- The buffer value "ef". -/
def ef : array_string 2 := ⟨⟨[101, 102, 0], rfl⟩⟩

/-- The buffer value "foobar", stored in an `array_string<3 + 3>`. -/
def foobar : array_string (3 + 3) := ⟨⟨[102, 111, 111, 98, 97, 114, 0], rfl⟩⟩

/-- The buffer value "abcdef", as the type of `("ab" + "cd") + "ef"`. -/
def abcdef_left : array_string (2 + 2 + 2) := ⟨⟨[97, 98, 99, 100, 101, 102, 0], rfl⟩⟩

/-- The buffer value "abcdef", as the type of `"ab" + ("cd" + "ef")`. -/
def abcdef_right : array_string (2 + (2 + 2)) := ⟨⟨[97, 98, 99, 100, 101, 102, 0], rfl⟩⟩

/-- A raw buffer of three characters without a terminator: 'a', 0, 'b'. -/
def a0b_unterminated : Buf 3 := ⟨[97, 0, 98], rfl⟩

/-- The literal reference to the buffer 'a', 0, 'b', 0, of length 3. -/
def lit_a0b : string_literal 3 := ⟨a0b_raw⟩

/-- The buffer value 'a', 0, 'b', of length 3. -/
def arr_a0b : array_string 3 := ⟨a0b_raw⟩

/-- The raw literal "ab", three characters with its terminator. -/
def ab_raw : Buf 3 := ⟨[97, 98, 0], rfl⟩

/-- The raw literal "cd", three characters with its terminator. -/
def cd_raw : Buf 3 := ⟨[99, 100, 0], rfl⟩

/-- The literal reference to "". -/
def lit_empty : string_literal 0 := ⟨⟨[0], rfl⟩⟩

/-- The raw literal "", one character: its terminator. -/
def empty_raw : Buf 1 := ⟨[0], rfl⟩

/-- The buffer value "abcd". -/
def abcd : array_string 4 := ⟨⟨[97, 98, 99, 100, 0], rfl⟩⟩

end examples

/-! ## Auxiliary lemmas -/

theorem subscript_nat (a : List char) (i : Nat) (h : i < a.length) :
    subscript a (i : Int) = .ok (a.get ⟨i, h⟩) := by
  have h0 : ¬ ((i : Int) < 0) := by omega
  simp [subscript, h0, List.getElem?_eq_getElem h]

theorem asserted_subscript_nat (nd : Bool) (N : Nat) (a : List char) (i : Nat)
    (hi : i < N) (h : i < a.length) :
    AK_TOOLKIT_ASSERTED_EXPRESSION nd (decide ((i : Int) ≥ 0) && decide ((i : Int) < (N : Int)))
      (subscript a (i : Int)) = .ok (a.get ⟨i, h⟩) := by
  have h1 : (i : Int) < (N : Int) := by omega
  cases nd <;> simp [AK_TOOLKIT_ASSERTED_EXPRESSION, subscript_nat a i h, h1]

theorem pack_expansion_append (f : Int → Result char) (xs ys : detail.int_sequence)
    (a b : List char) (hx : pack_expansion f xs = .ok a) (hy : pack_expansion f ys = .ok b) :
    pack_expansion f (xs ++ ys) = .ok (a ++ b) := by
  induction xs generalizing a with
  | nil =>
    simp [pack_expansion] at hx
    subst hx
    simpa using hy
  | cons i is ih =>
    simp only [pack_expansion] at hx
    cases hf : f i with
    | error e => rw [hf] at hx; simp at hx
    | ok c =>
      rw [hf] at hx
      cases hp : pack_expansion f is with
      | error e => rw [hp] at hx; simp at hx
      | ok cs =>
        rw [hp] at hx
        simp at hx
        subst hx
        simp [pack_expansion, hf, ih cs hp]

theorem make_int_sequence_succ (n : Nat) :
    detail.make_int_sequence (n + 1) = detail.make_int_sequence n ++ [(n : Int)] := by
  simp [detail.make_int_sequence, detail.make_int_sequence_, detail.cat]

theorem make_int_sequence_length (n : Nat) : (detail.make_int_sequence n).length = n := by
  induction n with
  | zero => rfl
  | succ n ih => rw [make_int_sequence_succ]; simp [ih]

/-- Reading a buffer through the checked subscript at the indices of
`make_int_sequence<n>` yields its first `n` characters, in both build modes. -/
theorem pack_expansion_make_int_sequence (nd : Bool) (N : Nat) (a : List char)
    (ha : a.length = N + 1) (n : Nat) (hn : n ≤ N) :
    pack_expansion
      (fun i => AK_TOOLKIT_ASSERTED_EXPRESSION nd (decide (i ≥ 0) && decide (i < (N : Int)))
        (subscript a i)) (detail.make_int_sequence n) = .ok (a.take n) := by
  induction n with
  | zero => simp [detail.make_int_sequence, detail.make_int_sequence_, pack_expansion]
  | succ n ih =>
    have hlt : n < a.length := by omega
    rw [make_int_sequence_succ, List.take_succ, List.getElem?_eq_getElem hlt]
    apply pack_expansion_append _ _ _ _ _ (ih (by omega))
    simp only [pack_expansion]
    rw [asserted_subscript_nat nd N a n (by omega) hlt]
    simp

theorem of_init_ok (N : Nat) (xs : List char) (h : xs.length = N + 1) :
    array_string.of_init N xs = .ok ⟨⟨xs, h⟩⟩ := by
  have hle : xs.length ≤ N + 1 := by omega
  simp [array_string.of_init, aggregate_init, hle, h]


/-- Index-wise reading of a concatenated, terminated character list. -/
theorem concat_index (a b : List char) (M K : Nat) (ha : M < a.length) (hb : K < b.length) :
    (∀ i, i < M → (a.take M ++ b.take K ++ [0])[i]? = a[i]?) ∧
    (∀ j, j < K → (a.take M ++ b.take K ++ [0])[M + j]? = b[j]?) ∧
    (a.take M ++ b.take K ++ [0])[M + K]? = some 0 ∧
    (a.take M ++ b.take K ++ [0]).length = M + K + 1 := by
  have hla : (a.take M).length = M := by simp; omega
  have hlb : (b.take K).length = K := by simp; omega
  refine ⟨?_, ?_, ?_, ?_⟩
  · intro i hi
    rw [List.append_assoc, List.getElem?_append_left (by omega), List.getElem?_take_of_lt hi]
  · intro j hj
    rw [List.append_assoc, List.getElem?_append_right (by omega), hla,
      List.getElem?_append_left (by omega)]
    simp [List.getElem?_take_of_lt hj]
  · rw [List.getElem?_append_right (by simp; omega)]
    simp [hla, hlb]
  · simp; omega

theorem take_append_length (a b : List char) (M K : Nat) (ha : a.length = M + 1)
    (hb : b.length = K + 1) : (a.take M ++ b.take K ++ [0]).length = M + K + 1 := by
  simp; omega

theorem private_ctor_literals_ok (nd : Bool) (N M K : Nat) (l : string_literal M)
    (r : string_literal K) (hN : M + K = N) :
    ∃ s : array_string N,
      array_string.private_ctor_literals nd N l r (detail.make_int_sequence M)
        (detail.make_int_sequence K) = .ok s ∧
      s.c_str = l.c_str.take M ++ r.c_str.take K ++ [0] := by
  have hl := pack_expansion_make_int_sequence nd M l._lit.val l._lit.property M (le_refl M)
  have hr := pack_expansion_make_int_sequence nd K r._lit.val r._lit.property K (le_refl K)
  have hlen := take_append_length l._lit.val r._lit.val M K l._lit.property r._lit.property
  rw [hN] at hlen
  refine ⟨⟨⟨_, hlen⟩⟩, ?_, rfl⟩
  unfold array_string.private_ctor_literals
  have el : l.operator_subscript nd = fun i => AK_TOOLKIT_ASSERTED_EXPRESSION nd
      (decide (i ≥ 0) && decide (i < (M : Int))) (subscript l._lit.val i) := rfl
  have er : r.operator_subscript nd = fun i => AK_TOOLKIT_ASSERTED_EXPRESSION nd
      (decide (i ≥ 0) && decide (i < (K : Int))) (subscript r._lit.val i) := rfl
  rw [el, er, hl, hr]
  exact of_init_ok N _ hlen

theorem private_ctor_arrays_ok (nd : Bool) (N M K : Nat) (l : array_string M)
    (r : array_string K) (hN : M + K = N) :
    ∃ s : array_string N,
      array_string.private_ctor_arrays nd N l r (detail.make_int_sequence M)
        (detail.make_int_sequence K) = .ok s ∧
      s.c_str = l.c_str.take M ++ r.c_str.take K ++ [0] := by
  have hl := pack_expansion_make_int_sequence nd M l._array.val l._array.property M (le_refl M)
  have hr := pack_expansion_make_int_sequence nd K r._array.val r._array.property K (le_refl K)
  have hlen := take_append_length l._array.val r._array.val M K l._array.property
    r._array.property
  rw [hN] at hlen
  refine ⟨⟨⟨_, hlen⟩⟩, ?_, rfl⟩
  unfold array_string.private_ctor_arrays
  have el : l.operator_subscript nd = fun i => AK_TOOLKIT_ASSERTED_EXPRESSION nd
      (decide (i ≥ 0) && decide (i < (M : Int))) (subscript l._array.val i) := rfl
  have er : r.operator_subscript nd = fun i => AK_TOOLKIT_ASSERTED_EXPRESSION nd
      (decide (i ≥ 0) && decide (i < (K : Int))) (subscript r._array.val i) := rfl
  rw [el, er, hl, hr]
  exact of_init_ok N _ hlen

theorem ctor_literal_ok (nd : Bool) (N : Nat) (l : string_literal N) :
    ∃ s : array_string N,
      array_string.ctor_literal nd N l = .ok s ∧ s.c_str = l.c_str.take N ++ [0] := by
  have hl := pack_expansion_make_int_sequence nd N l._lit.val l._lit.property N (le_refl N)
  have hlen : (l._lit.val.take N ++ [0]).length = N + 1 := by
    have := l._lit.property
    simp
  refine ⟨⟨⟨_, hlen⟩⟩, ?_, rfl⟩
  unfold array_string.ctor_literal array_string.private_ctor_literal
  have el : l.operator_subscript nd = fun i => AK_TOOLKIT_ASSERTED_EXPRESSION nd
      (decide (i ≥ 0) && decide (i < (N : Int))) (subscript l._lit.val i) := rfl
  rw [el, hl]
  exact of_init_ok N _ hlen

/-- The two-argument construction from two literal references, when viable. -/
theorem ctor_two_literals_ok (nd : Bool) (N M K : Nat) (l : string_literal M)
    (r : string_literal K) (hM : M < N) (hK : K = N - M) :
    ∃ s : array_string N,
      array_string.ctor_two nd N (.lit M l) (.lit K r) = .ok s ∧
      s.c_str = l.c_str.take M ++ r.c_str.take K ++ [0] := by
  obtain ⟨s, hs, hc⟩ := private_ctor_literals_ok nd N M K l r (by omega)
  refine ⟨s, ?_, hc⟩
  simp only [array_string.ctor_two, array_string.ctor_literals, hM, ← hK, and_self, if_true]
  exact hs

/-- The two-argument construction from two buffer values, when viable. -/
theorem ctor_two_arrays_ok (nd : Bool) (N M K : Nat) (l : array_string M)
    (r : array_string K) (hM : M < N) (hK : K = N - M) :
    ∃ s : array_string N,
      array_string.ctor_two nd N (.arr M l) (.arr K r) = .ok s ∧
      s.c_str = l.c_str.take M ++ r.c_str.take K ++ [0] := by
  obtain ⟨s, hs, hc⟩ := private_ctor_arrays_ok nd N M K l r (by omega)
  refine ⟨s, ?_, hc⟩
  simp only [array_string.ctor_two, array_string.ctor_arrays, hM, ← hK, and_self, if_true]
  exact hs


/-- The first N characters of a stored array that ends in an appended 0. -/
theorem take_of_snoc {N : Nat} (s : array_string N) (xs : List char)
    (h : s.c_str = xs ++ [0]) : s.c_str.take N = xs := by
  have hlen : s.c_str.length = N + 1 := s._array.property
  have hx : xs.length = N := by
    have := congrArg List.length h
    simp at this
    omega
  rw [h]
  exact List.take_left' hx

/-- The two-argument construction from a buffer value and a literal reference, when
viable: the literal reference is converted to a buffer value first. -/
theorem ctor_two_array_literal_ok (nd : Bool) (N M K : Nat) (l : array_string M)
    (r : string_literal K) (hM : M < N) (hK : K = N - M) :
    ∃ s : array_string N,
      array_string.ctor_two nd N (.arr M l) (.lit K r) = .ok s ∧
      s.c_str = l.c_str.take M ++ r.c_str.take K ++ [0] := by
  obtain ⟨ar, har, hac⟩ := ctor_literal_ok nd K r
  obtain ⟨s, hs, hc⟩ := ctor_two_arrays_ok nd N M K l ar hM hK
  have hv : M < N ∧ K = N - M := ⟨hM, hK⟩
  refine ⟨s, ?_, ?_⟩
  · unfold array_string.ctor_two
    simp only [if_pos hv, har]
    exact hs
  · rw [hc, take_of_snoc ar _ hac]

theorem ctor_two_array_literal_not_viable (nd : Bool) (N M K : Nat) (l : array_string M)
    (r : string_literal K) (h : ¬ (M < N ∧ K = N - M)) :
    array_string.ctor_two nd N (.arr M l) (.lit K r) = .error .ill_formed := by
  unfold array_string.ctor_two
  simp only [if_neg h]

/-! ## Claims -/

/-- C1 (counterexample): the concatenation of the buffer value "foo" with the empty buffer
value "" is not defined; the two-argument constructor is disabled for an empty right
operand, in both build modes. -/
theorem C1_counterexample :
    (¬ ∃ s, operator_plus_array_array false examples.foo examples.empty = .ok s) ∧
    operator_plus_array_array false examples.foo examples.empty = .error .ill_formed ∧
    operator_plus_array_array true examples.foo examples.empty = .error .ill_formed := by
  refine ⟨?_, rfl, rfl⟩
  rintro ⟨s, hs⟩
  have h : operator_plus_array_array false examples.foo examples.empty
      = .error .ill_formed := rfl
  rw [h] at hs
  cases hs

/-- C1 (amended): for buffer values A of length a ≥ 0 and B of length b > 0, in either
build mode, A + B is defined and yields a value of size a + b whose characters at indices
0..a-1 are those of A in order, whose characters at indices a..a+b-1 are those of B in
order, and whose stored character at index a + b is the terminator 0; it stores exactly
a + b + 1 characters. -/
theorem C1_concat_arrays (nd : Bool) (a b : Nat) (A : array_string a) (B : array_string b)
    (hb : 0 < b) :
    ∃ s : array_string (a + b),
      operator_plus_array_array nd A B = .ok s ∧
      s.size = a + b ∧
      s.c_str.length = a + b + 1 ∧
      (∀ i, i < a → s.c_str[i]? = A.c_str[i]?) ∧
      (∀ j, j < b → s.c_str[a + j]? = B.c_str[j]?) ∧
      s.c_str[a + b]? = some 0 := by
  obtain ⟨s, hs, hc⟩ := ctor_two_arrays_ok nd (a + b) a b A B (by omega) (by omega)
  have hA : a < A.c_str.length := by have := A._array.property; simp [array_string.c_str]
  have hB : b < B.c_str.length := by have := B._array.property; simp [array_string.c_str]
  obtain ⟨h1, h2, h3, h4⟩ := concat_index A.c_str B.c_str a b hA hB
  refine ⟨s, hs, rfl, ?_, ?_, ?_, ?_⟩ <;> rw [hc] <;> assumption

/-- C1 (witness): "foo" + "bar" has size 6, the characters f,o,o,b,a,r and the terminator
at index 6. -/
theorem C1_concat_arrays_witness :
    (∃ s : array_string (3 + 3),
      operator_plus_array_array false examples.foo examples.bar = .ok s ∧
      s.size = 3 + 3 ∧
      s.c_str.length = 3 + 3 + 1 ∧
      (∀ i, i < 3 → s.c_str[i]? = examples.foo.c_str[i]?) ∧
      (∀ j, j < 3 → s.c_str[3 + j]? = examples.bar.c_str[j]?) ∧
      s.c_str[3 + 3]? = some 0) ∧
    (operator_plus_array_array false examples.foo examples.bar).map array_string.c_str
      = .ok [102, 111, 111, 98, 97, 114, 0] :=
  ⟨C1_concat_arrays false 3 3 examples.foo examples.bar (by decide), rfl⟩

/-- C2: for every buffer L of declared size n + 1 whose last character is 0, in either
build mode, literal(L) and string_literal<n>(L) give the same reference; its size() is n,
its operator[](i) is L[i] for every 0 ≤ i < n, and its c_str() is the n + 1 characters
of L, whatever the content below index n. -/
theorem C2_literal_roundtrip (nd : Bool) (n : Nat) (L : Buf (n + 1))
    (h0 : L.val[n]? = some 0) :
    ∃ s : string_literal n,
      literal nd (n + 1) L = .ok s ∧
      string_literal.ctor nd n L = .ok s ∧
      s.size = n ∧
      (∀ i : Nat, i < n →
        ∃ c, L.val[i]? = some c ∧ s.operator_subscript nd (i : Int) = .ok c) ∧
      s.c_str = L.val ∧
      s.c_str.length = n + 1 := by
  have hn : n < L.val.length := by rw [L.property]; exact Nat.lt_succ_self n
  have hget : L.val[n] = 0 := by
    rw [List.getElem?_eq_getElem hn] at h0
    simpa using h0
  have hctor : string_literal.ctor nd n L = .ok ⟨L⟩ := by
    cases nd <;> simp [string_literal.ctor, AK_TOOLKIT_ASSERTED_EXPRESSION, hget]
  refine ⟨⟨L⟩, ?_, hctor, rfl, ?_, rfl, L.property⟩
  · have hpos : 0 < n + 1 := Nat.succ_pos n
    simp only [literal, hpos, dif_pos]
    exact hctor
  · intro i hi
    have hlt : i < L.val.length := by rw [L.property]; omega
    exact ⟨L.val.get ⟨i, hlt⟩, List.getElem?_eq_getElem hlt,
      asserted_subscript_nat nd n L.val i hi hlt⟩

/-- C2 (witness): the buffer 'a', 0, 'b', 0 of declared size 4 wraps to a reference of
size 3; the 0 at index 1 does not shorten it. -/
theorem C2_literal_roundtrip_witness :
    examples.a0b_raw.val[3]? = some 0 ∧
    (∃ s : string_literal 3,
      literal false (3 + 1) examples.a0b_raw = .ok s ∧
      string_literal.ctor false 3 examples.a0b_raw = .ok s ∧
      s.size = 3 ∧
      (∀ i : Nat, i < 3 →
        ∃ c, examples.a0b_raw.val[i]? = some c ∧
          s.operator_subscript false (i : Int) = .ok c) ∧
      s.c_str = examples.a0b_raw.val ∧
      s.c_str.length = 3 + 1) ∧
    (literal false 4 examples.a0b_raw).map string_literal.c_str = .ok [97, 0, 98, 0] :=
  ⟨rfl, C2_literal_roundtrip false 3 examples.a0b_raw rfl, rfl⟩

/-- C3: for every literal reference l of length N ≥ 0, in either build mode,
array_string<N>(l) succeeds; the value has size N and stores exactly N + 1 characters,
the character at index i is l[i] for every 0 ≤ i < N (read from the storage or through
operator[]), and the character at index N is 0; the value built from "hello" has the
characters h,e,l,l,o and the terminator. -/
theorem C3_from_literal (nd : Bool) (N : Nat) (l : string_literal N) :
    (∃ s : array_string N,
      array_string.ctor_literal nd N l = .ok s ∧
      s.size = N ∧
      s.c_str.length = N + 1 ∧
      (∀ i : Nat, i < N →
        ∃ c, l.operator_subscript nd (i : Int) = .ok c ∧ s.c_str[i]? = some c ∧
          s.operator_subscript nd (i : Int) = .ok c) ∧
      s.c_str[N]? = some 0) ∧
    (array_string.ctor_literal false 5 examples.hello).map array_string.c_str
      = .ok [104, 101, 108, 108, 111, 0] := by
  refine ⟨?_, rfl⟩
  obtain ⟨s, hs, hc⟩ := ctor_literal_ok nd N l
  have hl : l.c_str.length = N + 1 := l._lit.property
  have hlen : s.c_str.length = N + 1 := s._array.property
  refine ⟨s, hs, rfl, hlen, ?_, ?_⟩
  · intro i hi
    have hlt : i < l.c_str.length := by omega
    have hst : i < s.c_str.length := by omega
    have hsi : s.c_str[i]? = some (l.c_str.get ⟨i, hlt⟩) := by
      rw [hc, List.getElem?_append_left (by simp; omega), List.getElem?_take_of_lt hi,
        List.getElem?_eq_getElem hlt]
      rfl
    refine ⟨l.c_str.get ⟨i, hlt⟩, asserted_subscript_nat nd N l._lit.val i hi hlt, hsi, ?_⟩
    have h2 := asserted_subscript_nat nd N s._array.val i hi hst
    rw [List.getElem?_eq_getElem hst] at hsi
    have h3 : s._array.val.get ⟨i, hst⟩ = l.c_str.get ⟨i, hlt⟩ := by
      simpa [array_string.c_str] using hsi
    rw [← h3]
    exact h2
  · rw [hc, List.getElem?_append_right (by simp)]
    simp [hl]

/-- C4: for two sources of lengths M and N - M with M < N (in particular 0 < M < N), both
literal references or both buffer values, in either build mode, the two-source
constructor of array_string<N> yields a value whose characters at indices 0..M-1 are the
first source's in order, whose characters at indices M..N-1 are the second source's in
order, and whose character at index N is 0; the stored array has exactly N + 1
elements. -/
theorem C4_two_sources (nd : Bool) (N M : Nat) (hMN : M < N)
    (l1 : string_literal M) (r1 : string_literal (N - M))
    (l2 : array_string M) (r2 : array_string (N - M)) :
    (∃ s : array_string N,
      array_string.ctor_two nd N (.lit M l1) (.lit (N - M) r1) = .ok s ∧
      s.c_str.length = N + 1 ∧
      (∀ i, i < M → s.c_str[i]? = l1.c_str[i]?) ∧
      (∀ j, j < N - M → s.c_str[M + j]? = r1.c_str[j]?) ∧
      s.c_str[N]? = some 0) ∧
    (∃ s : array_string N,
      array_string.ctor_two nd N (.arr M l2) (.arr (N - M) r2) = .ok s ∧
      s.c_str.length = N + 1 ∧
      (∀ i, i < M → s.c_str[i]? = l2.c_str[i]?) ∧
      (∀ j, j < N - M → s.c_str[M + j]? = r2.c_str[j]?) ∧
      s.c_str[N]? = some 0) := by
  have hN : M + (N - M) = N := by omega
  constructor
  · obtain ⟨s, hs, hc⟩ := ctor_two_literals_ok nd N M (N - M) l1 r1 hMN rfl
    have hA : M < l1.c_str.length := by have := l1._lit.property; simp [string_literal.c_str]
    have hB : N - M < r1.c_str.length := by
      have := r1._lit.property; simp [string_literal.c_str]
    obtain ⟨h1, h2, h3, _⟩ := concat_index l1.c_str r1.c_str M (N - M) hA hB
    rw [hN] at h3
    refine ⟨s, hs, s._array.property, ?_, ?_, ?_⟩ <;> rw [hc] <;> assumption
  · obtain ⟨s, hs, hc⟩ := ctor_two_arrays_ok nd N M (N - M) l2 r2 hMN rfl
    have hA : M < l2.c_str.length := by have := l2._array.property; simp [array_string.c_str]
    have hB : N - M < r2.c_str.length := by
      have := r2._array.property; simp [array_string.c_str]
    obtain ⟨h1, h2, h3, _⟩ := concat_index l2.c_str r2.c_str M (N - M) hA hB
    rw [hN] at h3
    refine ⟨s, hs, s._array.property, ?_, ?_, ?_⟩ <;> rw [hc] <;> assumption

/-- C4 (witness): array_string<4> from the sources "ab" and "cd", as literal references
and as buffer values, stores a,b,c,d and the terminator. -/
theorem C4_two_sources_witness :
    ((∃ s : array_string 4,
      array_string.ctor_two false 4 (.lit 2 examples.lit_ab) (.lit (4 - 2) examples.lit_cd)
        = .ok s ∧
      s.c_str.length = 4 + 1 ∧
      (∀ i, i < 2 → s.c_str[i]? = examples.lit_ab.c_str[i]?) ∧
      (∀ j, j < 4 - 2 → s.c_str[2 + j]? = examples.lit_cd.c_str[j]?) ∧
      s.c_str[4]? = some 0) ∧
    (∃ s : array_string 4,
      array_string.ctor_two false 4 (.arr 2 examples.ab) (.arr (4 - 2) examples.cd) = .ok s ∧
      s.c_str.length = 4 + 1 ∧
      (∀ i, i < 2 → s.c_str[i]? = examples.ab.c_str[i]?) ∧
      (∀ j, j < 4 - 2 → s.c_str[2 + j]? = examples.cd.c_str[j]?) ∧
      s.c_str[4]? = some 0)) ∧
    (array_string.ctor_two false 4 (.lit 2 examples.lit_ab) (.lit 2 examples.lit_cd)).map
      array_string.c_str = .ok [97, 98, 99, 100, 0] ∧
    (array_string.ctor_two false 4 (.arr 2 examples.ab) (.arr 2 examples.cd)).map
      array_string.c_str = .ok [97, 98, 99, 100, 0] :=
  ⟨C4_two_sources false 4 2 (by decide) examples.lit_ab examples.lit_cd examples.ab
    examples.cd, rfl, rfl⟩

/-- A stored array that ends in an appended 0 has the terminator at index N. -/
theorem terminated_of_snoc {N : Nat} (s : array_string N) (xs : List char)
    (h : s.c_str = xs ++ [0]) : s.c_str[N]? = some 0 := by
  have hlen : s.c_str.length = N + 1 := s._array.property
  have hx : xs.length = N := by
    have := congrArg List.length h
    simp at this
    omega
  rw [h, List.getElem?_append_right (by omega)]
  simp [hx]

theorem ctor_literal_terminated (nd : Bool) (N : Nat) (l : string_literal N)
    (s : array_string N) (h : array_string.ctor_literal nd N l = .ok s) :
    s.c_str[N]? = some 0 := by
  obtain ⟨t, ht, hc⟩ := ctor_literal_ok nd N l
  rw [ht] at h
  have e : t = s := Except.ok.inj h
  rw [← e]
  exact terminated_of_snoc t _ hc

theorem ctor_two_terminated (nd : Bool) (N : Nat) (l r : Operand) (s : array_string N)
    (h : array_string.ctor_two nd N l r = .ok s) : s.c_str[N]? = some 0 := by
  cases l with
  | lit M l =>
    cases r with
    | lit K r =>
      by_cases hv : M < N ∧ K = N - M
      · obtain ⟨t, ht, hc⟩ := ctor_two_literals_ok nd N M K l r hv.1 hv.2
        rw [ht] at h
        have e : t = s := Except.ok.inj h
        rw [← e]
        exact terminated_of_snoc t _ hc
      · simp [array_string.ctor_two, array_string.ctor_literals, hv] at h
    | arr K r => simp [array_string.ctor_two] at h
  | arr M l =>
    cases r with
    | lit K r =>
      by_cases hv : M < N ∧ K = N - M
      · obtain ⟨t, ht, hc⟩ := ctor_two_array_literal_ok nd N M K l r hv.1 hv.2
        rw [ht] at h
        have e : t = s := Except.ok.inj h
        rw [← e]
        exact terminated_of_snoc t _ hc
      · rw [ctor_two_array_literal_not_viable nd N M K l r hv] at h
        cases h
    | arr K r =>
      by_cases hv : M < N ∧ K = N - M
      · obtain ⟨t, ht, hc⟩ := ctor_two_arrays_ok nd N M K l r hv.1 hv.2
        rw [ht] at h
        have e : t = s := Except.ok.inj h
        rw [← e]
        exact terminated_of_snoc t _ hc
      · simp [array_string.ctor_two, array_string.ctor_arrays, hv] at h

/-- C5: every array_string<N> value produced by the converting constructor, by the
two-argument construction (from two literal references, from two buffer values, or from
a buffer value and a literal reference converted to one) or by any operator+, in either
build mode, satisfies size() == N and c_str()[N] == 0. -/
theorem C5_invariants (N : Nat) (s : array_string N) (h : array_string.Produced N s) :
    s.size = N ∧ s.c_str[N]? = some 0 := by
  refine ⟨rfl, ?_⟩
  cases h with
  | by_ctor_literal nd _ l s h => exact ctor_literal_terminated nd _ l s h
  | by_ctor_two nd _ l r s h => exact ctor_two_terminated nd _ l r s h
  | by_plus_literal_literal nd N1 N2 l r s h => exact ctor_two_terminated nd _ _ _ s h
  | by_plus_raw_literal nd N1_1 N2 l r s h =>
    unfold operator_plus_raw_literal at h
    split at h
    · cases h
    · exact ctor_two_terminated nd _ _ _ s h
  | by_plus_literal_raw nd N1 N2_1 l r s h =>
    unfold operator_plus_literal_raw at h
    split at h
    · cases h
    · exact ctor_two_terminated nd _ _ _ s h
  | by_plus_array_literal nd N1 N2 l r s h =>
    unfold operator_plus_array_literal at h
    split at h
    · cases h
    · exact ctor_two_terminated nd _ _ _ s h
  | by_plus_literal_array nd N1 N2 l r s h => exact ctor_two_terminated nd _ _ _ s h
  | by_plus_array_array nd N1 N2 l r s h => exact ctor_two_terminated nd _ _ _ s h
  | by_plus_raw_array nd N1_1 N2 l r s h =>
    unfold operator_plus_raw_array at h
    split at h
    · cases h
    · exact ctor_two_terminated nd _ _ _ s h
  | by_plus_array_raw nd N1 N2_1 l r s h =>
    unfold operator_plus_array_raw at h
    split at h
    · cases h
    · split at h
      · cases h
      · exact ctor_two_terminated nd _ _ _ s h

/-- C5 (witness): "foobar", the result of "foo" + "bar", has size 6 and the terminator
at index 6; "abcd", constructed from the buffer value "ab" and the literal reference
"cd", has size 4 and the terminator at index 4. -/
theorem C5_invariants_witness :
    array_string.Produced (3 + 3) examples.foobar ∧
    (examples.foobar.size = 3 + 3 ∧ examples.foobar.c_str[3 + 3]? = some 0) ∧
    array_string.ctor_two false 4 (.arr 2 examples.ab) (.lit 2 examples.lit_cd)
      = .ok examples.abcd ∧
    (examples.abcd.size = 4 ∧ examples.abcd.c_str[4]? = some 0) :=
  ⟨array_string.Produced.by_plus_array_array false 3 3 examples.foo examples.bar
      examples.foobar rfl,
    C5_invariants (3 + 3) examples.foobar
      (array_string.Produced.by_plus_array_array false 3 3 examples.foo examples.bar
        examples.foobar rfl),
    rfl,
    C5_invariants 4 examples.abcd
      (array_string.Produced.by_ctor_two false 4 (.arr 2 examples.ab)
        (.lit 2 examples.lit_cd) examples.abcd rfl)⟩

theorem operator_plus_array_array_ok (nd : Bool) {a b : Nat} (A : array_string a)
    (B : array_string b) (hb : 0 < b) :
    ∃ s : array_string (a + b),
      operator_plus_array_array nd A B = .ok s ∧
      s.c_str = A.c_str.take a ++ B.c_str.take b ++ [0] :=
  ctor_two_arrays_ok nd (a + b) a b A B (by omega) (by omega)

theorem operator_plus_array_array_inv (nd : Bool) {a b : Nat} (A : array_string a)
    (B : array_string b) (s : array_string (a + b))
    (h : operator_plus_array_array nd A B = .ok s) :
    0 < b ∧ s.c_str = A.c_str.take a ++ B.c_str.take b ++ [0] := by
  by_cases hb : 0 < b
  · obtain ⟨t, ht, hc⟩ := operator_plus_array_array_ok nd A B hb
    rw [ht] at h
    have e : t = s := Except.ok.inj h
    rw [← e]
    exact ⟨hb, hc⟩
  · have hv : ¬ (a < a + b ∧ b = a + b - a) := by omega
    simp only [operator_plus_array_array, array_string.ctor_two, array_string.ctor_arrays, hv,
      if_false] at h
    cases h

/-- C6: for all buffer values A, B, C for which both groupings are constructed, in
either build mode, (A + B) + C and A + (B + C) have the same size and the same character
at every index 0..size, terminator included. -/
theorem C6_concat_assoc (nd : Bool) (a b c : Nat) (A : array_string a)
    (B : array_string b) (C : array_string c)
    (x : array_string (a + b + c)) (y : array_string (a + (b + c)))
    (hx : (operator_plus_array_array nd A B).bind
      (fun ab => operator_plus_array_array nd ab C) = .ok x)
    (hy : (operator_plus_array_array nd B C).bind
      (fun bc => operator_plus_array_array nd A bc) = .ok y) :
    x.size = y.size ∧ x.c_str = y.c_str ∧
      (∀ i, i ≤ x.size → x.c_str[i]? = y.c_str[i]?) ∧
      x.c_str = A.c_str.take a ++ B.c_str.take b ++ C.c_str.take c ++ [0] := by
  have hxc : x.c_str = A.c_str.take a ++ B.c_str.take b ++ C.c_str.take c ++ [0] := by
    cases hab : operator_plus_array_array nd A B with
    | error e => rw [hab] at hx; cases hx
    | ok ab =>
      rw [hab] at hx
      obtain ⟨_, h1⟩ := operator_plus_array_array_inv nd A B ab hab
      obtain ⟨_, h2⟩ := operator_plus_array_array_inv nd ab C x hx
      rw [h2, take_of_snoc ab _ h1]
  have hyc : y.c_str = A.c_str.take a ++ B.c_str.take b ++ C.c_str.take c ++ [0] := by
    cases hbc : operator_plus_array_array nd B C with
    | error e => rw [hbc] at hy; cases hy
    | ok bc =>
      rw [hbc] at hy
      obtain ⟨_, h1⟩ := operator_plus_array_array_inv nd B C bc hbc
      obtain ⟨_, h2⟩ := operator_plus_array_array_inv nd A bc y hy
      rw [h2, take_of_snoc bc _ h1]
      simp [List.append_assoc]
  refine ⟨?_, ?_, ?_, hxc⟩
  · simp [array_string.size, Nat.add_assoc]
  · rw [hxc, hyc]
  · intro i _
    rw [hxc, hyc]

/-- Both groupings of a triple concatenation are constructed when the second and the
third operand are not empty. -/
theorem concat_assoc_constructed (nd : Bool) (a b c : Nat) (A : array_string a)
    (B : array_string b) (C : array_string c) (hb : 0 < b) (hc : 0 < c) :
    (∃ x, (operator_plus_array_array nd A B).bind
      (fun ab => operator_plus_array_array nd ab C) = .ok x) ∧
    (∃ y, (operator_plus_array_array nd B C).bind
      (fun bc => operator_plus_array_array nd A bc) = .ok y) := by
  constructor
  · obtain ⟨ab, hab, _⟩ := operator_plus_array_array_ok nd A B hb
    obtain ⟨x, hx, _⟩ := operator_plus_array_array_ok nd ab C hc
    exact ⟨x, by rw [hab]; exact hx⟩
  · obtain ⟨bc, hbc, _⟩ := operator_plus_array_array_ok nd B C hc
    obtain ⟨y, hy, _⟩ := operator_plus_array_array_ok nd A bc (by omega)
    exact ⟨y, by rw [hbc]; exact hy⟩

/-- C6 (witness): "ab", "cd", "ef" give "abcdef" in either grouping. -/
theorem C6_concat_assoc_witness :
    ((operator_plus_array_array false examples.ab examples.cd).bind
      (fun ab => operator_plus_array_array false ab examples.ef)
        = .ok examples.abcdef_left) ∧
    ((operator_plus_array_array false examples.cd examples.ef).bind
      (fun bc => operator_plus_array_array false examples.ab bc)
        = .ok examples.abcdef_right) ∧
    (examples.abcdef_left.size = examples.abcdef_right.size ∧
      examples.abcdef_left.c_str = examples.abcdef_right.c_str ∧
      (∀ i, i ≤ examples.abcdef_left.size →
        examples.abcdef_left.c_str[i]? = examples.abcdef_right.c_str[i]?) ∧
      examples.abcdef_left.c_str = examples.ab.c_str.take 2 ++ examples.cd.c_str.take 2
        ++ examples.ef.c_str.take 2 ++ [0]) ∧
    examples.abcdef_left.c_str = [97, 98, 99, 100, 101, 102, 0] :=
  ⟨rfl, rfl,
    C6_concat_assoc false 2 2 2 examples.ab examples.cd examples.ef examples.abcdef_left
      examples.abcdef_right rfl rfl, rfl⟩

/-- The checked subscript fails with a contract violation exactly outside `[0, N)`. -/
theorem asserted_subscript_checked (N : Nat) (a : List char) (ha : a.length = N + 1)
    (i : Int) :
    (AK_TOOLKIT_ASSERTED_EXPRESSION false (decide (i ≥ 0) && decide (i < (N : Int)))
        (subscript a i) = .error .contract_violation ↔ (i < 0 ∨ i ≥ (N : Int))) ∧
    (0 ≤ i ∧ i < (N : Int) →
      ∃ c, a[i.toNat]? = some c ∧
        AK_TOOLKIT_ASSERTED_EXPRESSION false (decide (i ≥ 0) && decide (i < (N : Int)))
          (subscript a i) = .ok c) := by
  have hin : 0 ≤ i ∧ i < (N : Int) →
      ∃ c, a[i.toNat]? = some c ∧
        AK_TOOLKIT_ASSERTED_EXPRESSION false (decide (i ≥ 0) && decide (i < (N : Int)))
          (subscript a i) = .ok c := by
    rintro ⟨h0, h1⟩
    have hlt : i.toNat < a.length := by omega
    have hi : ((i.toNat : Nat) : Int) = i := Int.toNat_of_nonneg h0
    have h := asserted_subscript_nat false N a i.toNat (by omega) hlt
    rw [hi] at h
    exact ⟨a.get ⟨i.toNat, hlt⟩, List.getElem?_eq_getElem hlt, h⟩
  refine ⟨?_, hin⟩
  constructor
  · intro h
    by_contra hc
    have hr : 0 ≤ i ∧ i < (N : Int) := by omega
    obtain ⟨c, _, hok⟩ := hin hr
    rw [hok] at h
    cases h
  · intro h
    have hc : (decide (i ≥ 0) && decide (i < (N : Int))) = false := by
      rcases h with h | h
      · have : ¬ (i ≥ 0) := by omega
        simp [this]
      · have : ¬ (i < (N : Int)) := by omega
        simp [this]
    simp [AK_TOOLKIT_ASSERTED_EXPRESSION, hc]

/-- C7: with checks enabled, operator[](i) on a string_literal<N> or an array_string<N>
fails with a contract violation if and only if i < 0 or i ≥ N; in particular i == N fails
on both (also on an array_string, whose stored terminator sits there), and every i with
0 ≤ i < N returns the character at position i. -/
theorem C7_subscript_checked (N : Nat) (l : string_literal N) (s : array_string N)
    (i : Int) :
    (l.operator_subscript false i = .error .contract_violation ↔ (i < 0 ∨ i ≥ (N : Int))) ∧
    (s.operator_subscript false i = .error .contract_violation ↔ (i < 0 ∨ i ≥ (N : Int))) ∧
    (0 ≤ i ∧ i < (N : Int) →
      ∃ c, l.c_str[i.toNat]? = some c ∧ l.operator_subscript false i = .ok c) ∧
    (0 ≤ i ∧ i < (N : Int) →
      ∃ c, s.c_str[i.toNat]? = some c ∧ s.operator_subscript false i = .ok c) ∧
    l.operator_subscript false (N : Int) = .error .contract_violation ∧
    s.operator_subscript false (N : Int) = .error .contract_violation := by
  have hl := asserted_subscript_checked N l._lit.val l._lit.property
  have hs := asserted_subscript_checked N s._array.val s._array.property
  refine ⟨(hl i).1, (hs i).1, (hl i).2, (hs i).2, ?_, ?_⟩
  · exact ((hl (N : Int)).1).2 (Or.inr (le_refl _))
  · exact ((hs (N : Int)).1).2 (Or.inr (le_refl _))

/-- C7 (witness): on the buffer value "foo", index 3 and index -1 fail with a contract
violation and index 2 returns 'o'. -/
theorem C7_subscript_checked_witness :
    examples.foo.operator_subscript false 3 = .error .contract_violation ∧
    examples.foo.operator_subscript false (-1) = .error .contract_violation ∧
    examples.foo.operator_subscript false 2 = .ok 111 ∧
    examples.foo.c_str[3]? = some 0 ∧
    (∃ c, examples.foo.c_str[(2 : Int).toNat]? = some c ∧
      examples.foo.operator_subscript false 2 = .ok c) :=
  ⟨rfl, rfl, rfl, rfl,
    (C7_subscript_checked 3 examples.lit_a0b examples.foo 2).2.2.2.1 (by decide)⟩

/-- C8: with checks enabled, constructing a string_literal<N> from a buffer of N + 1
characters fails with a contract violation if and only if the character at index N is
not 0, and succeeds with a reference to that buffer otherwise; every constructed
reference has c_str()[N] == 0; whether it fails depends on the character at index N
alone. -/
theorem C8_literal_ctor_checked (N : Nat) (lit : Buf (N + 1)) :
    (string_literal.ctor false N lit = .error .contract_violation ↔ lit.val[N]? ≠ some 0) ∧
    (lit.val[N]? = some 0 → string_literal.ctor false N lit = .ok ⟨lit⟩) ∧
    (∀ s, string_literal.ctor false N lit = .ok s → s.c_str = lit.val ∧ s.c_str[N]? = some 0) ∧
    (∀ other : Buf (N + 1), other.val[N]? = lit.val[N]? →
      ((∃ s, string_literal.ctor false N lit = .ok s) ↔
        (∃ s, string_literal.ctor false N other = .ok s))) := by
  have key : ∀ b : Buf (N + 1),
      (b.val[N]? = some 0 → string_literal.ctor false N b = .ok ⟨b⟩) ∧
      (b.val[N]? ≠ some 0 → string_literal.ctor false N b = .error .contract_violation) := by
    intro b
    have hn : N < b.val.length := by rw [b.property]; exact Nat.lt_succ_self N
    rw [List.getElem?_eq_getElem hn]
    constructor
    · intro h
      have hget : b.val[N] = 0 := by simpa using h
      simp [string_literal.ctor, AK_TOOLKIT_ASSERTED_EXPRESSION, hget]
    · intro h
      have hget : ¬ b.val[N] = 0 := by simpa using h
      simp [string_literal.ctor, AK_TOOLKIT_ASSERTED_EXPRESSION, hget]
  have succeeds : ∀ b : Buf (N + 1),
      (∃ s, string_literal.ctor false N b = .ok s) ↔ b.val[N]? = some 0 := by
    intro b
    constructor
    · rintro ⟨s, hs⟩
      by_contra hne
      rw [(key b).2 hne] at hs
      cases hs
    · intro h
      exact ⟨⟨b⟩, (key b).1 h⟩
  refine ⟨?_, (key lit).1, ?_, ?_⟩
  · constructor
    · intro h h0
      rw [(key lit).1 h0] at h
      cases h
    · exact (key lit).2
  · intro s hs
    have h0 := (succeeds lit).1 ⟨s, hs⟩
    rw [(key lit).1 h0] at hs
    have e : (⟨lit⟩ : string_literal N) = s := Except.ok.inj hs
    rw [← e]
    exact ⟨rfl, h0⟩
  · intro other ho
    rw [succeeds lit, succeeds other, ho]

/-- C8 (witness): the buffer 'a', 0, 'b' without terminator is rejected as a
string_literal<2>, and the buffer 'a', 0, 'b', 0 is accepted as a string_literal<3>
although it holds a 0 below index 3. -/
theorem C8_literal_ctor_checked_witness :
    string_literal.ctor false 2 examples.a0b_unterminated = .error .contract_violation ∧
    string_literal.ctor false 3 examples.a0b_raw = .ok examples.lit_a0b ∧
    examples.lit_a0b.c_str[3]? = some 0 :=
  ⟨((C8_literal_ctor_checked 2 examples.a0b_unterminated).1).2 (by decide),
    rfl, rfl⟩

/-- Wrapping a terminated raw buffer succeeds in both build modes. -/
theorem string_literal_ctor_ok (nd : Bool) (n : Nat) (L : Buf (n + 1))
    (h0 : L.val[n]? = some 0) : string_literal.ctor nd n L = .ok ⟨L⟩ := by
  have hn : n < L.val.length := by rw [L.property]; exact Nat.lt_succ_self n
  have hget : L.val[n] = 0 := by
    rw [List.getElem?_eq_getElem hn] at h0
    simpa using h0
  cases nd <;> simp [string_literal.ctor, AK_TOOLKIT_ASSERTED_EXPRESSION, hget]

theorem literal_ok (nd : Bool) (n : Nat) (L : Buf (n + 1)) (h0 : L.val[n]? = some 0) :
    literal nd (n + 1) L = .ok ⟨L⟩ := by
  have hpos : 0 < n + 1 := Nat.succ_pos n
  simp only [literal, hpos, dif_pos]
  exact string_literal_ctor_ok nd n L h0

/-- C9 (counterexample): with an empty right operand the concatenation of two literal
references is not constructed, and a literal reference or a raw literal on the left of
a buffer value is not constructed either, although the same characters as two buffer
values concatenate to "abcd". -/
theorem C9_counterexample :
    operator_plus_literal_literal false examples.lit_ab examples.lit_empty
      = .error .ill_formed ∧
    operator_plus_literal_array false examples.lit_ab examples.cd = .error .ill_formed ∧
    operator_plus_raw_array false examples.ab_raw examples.cd = .error .ill_formed ∧
    (operator_plus_array_array false examples.ab examples.cd).map array_string.c_str
      = .ok [97, 98, 99, 100, 0] :=
  ⟨rfl, rfl, rfl, rfl⟩

/-- C9 (amended): for the pairings literal reference + literal reference, raw literal +
literal reference, literal reference + raw literal, buffer value + literal reference,
buffer value + buffer value and buffer value + raw literal, with a right operand of
length N2 > 0 and raw literals that end in 0, in either build mode: a raw literal of
declared size k acts as the literal reference of length k - 1 over it, the result is
constructed with size N1 + N2, and its stored characters are the N1 characters of the
left operand, the N2 characters of the right operand and the terminator; so operands
with the same characters give the same characters as buffer value + buffer value. -/
theorem C9_operator_plus_kinds (nd : Bool) (N1 N2 : Nat) (hN2 : 0 < N2)
    (l_lit : string_literal N1) (r_lit : string_literal N2)
    (l_arr : array_string N1) (r_arr : array_string N2)
    (l_raw : Buf (N1 + 1)) (r_raw : Buf (N2 + 1))
    (hl0 : l_raw.val[N1]? = some 0) (hr0 : r_raw.val[N2]? = some 0) :
    (∃ s, operator_plus_literal_literal nd l_lit r_lit = .ok s ∧ s.size = N1 + N2 ∧
      s.c_str = l_lit.c_str.take N1 ++ r_lit.c_str.take N2 ++ [0]) ∧
    (operator_plus_raw_literal nd l_raw r_lit
        = operator_plus_literal_literal nd (⟨l_raw⟩ : string_literal N1) r_lit ∧
      ∃ s, operator_plus_raw_literal nd l_raw r_lit = .ok s ∧ s.size = N1 + N2 ∧
        s.c_str = l_raw.val.take N1 ++ r_lit.c_str.take N2 ++ [0]) ∧
    (operator_plus_literal_raw nd l_lit r_raw
        = operator_plus_literal_literal nd l_lit (⟨r_raw⟩ : string_literal N2) ∧
      ∃ s, operator_plus_literal_raw nd l_lit r_raw = .ok s ∧ s.size = N1 + N2 ∧
        s.c_str = l_lit.c_str.take N1 ++ r_raw.val.take N2 ++ [0]) ∧
    (∃ s, operator_plus_array_literal nd l_arr r_lit = .ok s ∧ s.size = N1 + N2 ∧
      s.c_str = l_arr.c_str.take N1 ++ r_lit.c_str.take N2 ++ [0]) ∧
    (∃ s, operator_plus_array_array nd l_arr r_arr = .ok s ∧ s.size = N1 + N2 ∧
      s.c_str = l_arr.c_str.take N1 ++ r_arr.c_str.take N2 ++ [0]) ∧
    (operator_plus_array_raw nd l_arr r_raw
        = operator_plus_array_literal nd l_arr (⟨r_raw⟩ : string_literal N2) ∧
      ∃ s, operator_plus_array_raw nd l_arr r_raw = .ok s ∧ s.size = N1 + N2 ∧
        s.c_str = l_arr.c_str.take N1 ++ r_raw.val.take N2 ++ [0]) := by
  have hv1 : N1 < N1 + N2 := by omega
  have hv2 : N2 = N1 + N2 - N1 := by omega
  have hll : ∀ (l : string_literal N1) (r : string_literal N2),
      ∃ s, operator_plus_literal_literal nd l r = .ok s ∧ s.size = N1 + N2 ∧
        s.c_str = l.c_str.take N1 ++ r.c_str.take N2 ++ [0] := by
    intro l r
    obtain ⟨s, hs, hc⟩ := ctor_two_literals_ok nd (N1 + N2) N1 N2 l r hv1 hv2
    exact ⟨s, hs, rfl, hc⟩
  have hal : ∀ (l : array_string N1) (r : string_literal N2),
      ∃ s, operator_plus_array_literal nd l r = .ok s ∧ s.size = N1 + N2 ∧
        s.c_str = l.c_str.take N1 ++ r.c_str.take N2 ++ [0] := by
    intro l r
    obtain ⟨ar, har, hac⟩ := ctor_literal_ok nd N2 r
    obtain ⟨s, hs, hc⟩ := ctor_two_arrays_ok nd (N1 + N2) N1 N2 l ar hv1 hv2
    refine ⟨s, ?_, rfl, ?_⟩
    · simp only [operator_plus_array_literal, har]
      exact hs
    · rw [hc, take_of_snoc ar _ hac]
  have e1 : operator_plus_raw_literal nd l_raw r_lit
      = operator_plus_literal_literal nd (⟨l_raw⟩ : string_literal N1) r_lit := by
    simp only [operator_plus_raw_literal, literal_ok nd N1 l_raw hl0]
    rfl
  have e2 : operator_plus_literal_raw nd l_lit r_raw
      = operator_plus_literal_literal nd l_lit (⟨r_raw⟩ : string_literal N2) := by
    simp only [operator_plus_literal_raw, literal_ok nd N2 r_raw hr0]
    rfl
  have e3 : operator_plus_array_raw nd l_arr r_raw
      = operator_plus_array_literal nd l_arr (⟨r_raw⟩ : string_literal N2) := by
    obtain ⟨ar, har, _⟩ := ctor_literal_ok nd N2 ⟨r_raw⟩
    have har2 : array_string.ctor_literal nd (N2 + 1 - 1) ⟨r_raw⟩ = .ok ar := har
    simp only [operator_plus_array_raw, operator_plus_array_literal,
      literal_ok nd N2 r_raw hr0, har, har2]
    rfl
  refine ⟨hll l_lit r_lit, ⟨e1, ?_⟩, ⟨e2, ?_⟩, hal l_arr r_lit, ?_, ⟨e3, ?_⟩⟩
  · rw [e1]; exact hll ⟨l_raw⟩ r_lit
  · rw [e2]; exact hll l_lit ⟨r_raw⟩
  · obtain ⟨s, hs, hc⟩ := operator_plus_array_array_ok nd l_arr r_arr hN2
    exact ⟨s, hs, rfl, hc⟩
  · rw [e3]; exact hal l_arr ⟨r_raw⟩

/-- C9 (witness): "ab" and "cd" concatenate to "abcd" in each of the six pairings. -/
theorem C9_operator_plus_kinds_witness :
    (0 < 2 ∧ examples.ab_raw.val[2]? = some 0 ∧ examples.cd_raw.val[2]? = some 0) ∧
    (operator_plus_raw_literal false examples.ab_raw examples.lit_cd
        = operator_plus_literal_literal false (⟨examples.ab_raw⟩ : string_literal 2)
          examples.lit_cd ∧
      ∃ s, operator_plus_raw_literal false examples.ab_raw examples.lit_cd = .ok s ∧
        s.size = 2 + 2 ∧
        s.c_str = examples.ab_raw.val.take 2 ++ examples.lit_cd.c_str.take 2 ++ [0]) ∧
    (operator_plus_literal_literal false examples.lit_ab examples.lit_cd).map
      array_string.c_str = .ok [97, 98, 99, 100, 0] ∧
    (operator_plus_raw_literal false examples.ab_raw examples.lit_cd).map
      array_string.c_str = .ok [97, 98, 99, 100, 0] ∧
    (operator_plus_literal_raw false examples.lit_ab examples.cd_raw).map
      array_string.c_str = .ok [97, 98, 99, 100, 0] ∧
    (operator_plus_array_literal false examples.ab examples.lit_cd).map
      array_string.c_str = .ok [97, 98, 99, 100, 0] ∧
    (operator_plus_array_array false examples.ab examples.cd).map
      array_string.c_str = .ok [97, 98, 99, 100, 0] ∧
    (operator_plus_array_raw false examples.ab examples.cd_raw).map
      array_string.c_str = .ok [97, 98, 99, 100, 0] :=
  ⟨⟨by decide, rfl, rfl⟩,
    (C9_operator_plus_kinds false 2 2 (by decide) examples.lit_ab examples.lit_cd
      examples.ab examples.cd examples.ab_raw examples.cd_raw rfl rfl).2.1,
    rfl, rfl, rfl, rfl, rfl, rfl⟩

/-- C10: in every configuration where the string-view conversion is enabled (settings
1 to 4), converting a string_literal<N> or an array_string<N> yields the first N
characters of c_str(): a sequence of length exactly N whose i-th character equals
operator[](i) for every 0 ≤ i < N (in either build mode); the terminator at index N is
not part of it. -/
theorem C10_string_view (config : Int) (hc : 1 ≤ config ∧ config ≤ 4) (nd : Bool) (N : Nat)
    (l : string_literal N) (s : array_string N) :
    ∃ v w : List char,
      l.string_view (some config) = some v ∧
      s.string_view (some config) = some w ∧
      v.length = N ∧ w.length = N ∧
      (∀ i : Nat, i < N → ∃ c, v[i]? = some c ∧ l.operator_subscript nd (i : Int) = .ok c) ∧
      (∀ i : Nat, i < N → ∃ c, w[i]? = some c ∧ s.operator_subscript nd (i : Int) = .ok c) ∧
      v = l.c_str.take N ∧ w = s.c_str.take N := by
  have hv : ∀ xs : List char,
      AK_TOOLKIT_STRING_VIEW_OPERATIONS (some config) xs N = some (xs.take N) := by
    intro xs
    have h : config = 1 ∨ config = 2 ∨ config = 3 ∨ config = 4 := by omega
    rcases h with h | h | h | h <;> subst h <;> simp [AK_TOOLKIT_STRING_VIEW_OPERATIONS]
  have hl : l.c_str.length = N + 1 := l._lit.property
  have hs : s.c_str.length = N + 1 := s._array.property
  refine ⟨l.c_str.take N, s.c_str.take N, hv _, hv _, ?_, ?_, ?_, ?_, rfl, rfl⟩
  · simp [hl]
  · simp [hs]
  · intro i hi
    have hlt : i < l.c_str.length := by omega
    refine ⟨l.c_str.get ⟨i, hlt⟩, ?_, asserted_subscript_nat nd N l._lit.val i hi hlt⟩
    rw [List.getElem?_take_of_lt hi, List.getElem?_eq_getElem hlt]
    rfl
  · intro i hi
    have hlt : i < s.c_str.length := by omega
    refine ⟨s.c_str.get ⟨i, hlt⟩, ?_, asserted_subscript_nat nd N s._array.val i hi hlt⟩
    rw [List.getElem?_take_of_lt hi, List.getElem?_eq_getElem hlt]
    rfl

/-- C10 (witness): with setting 1, the reference and the buffer value over 'a', 0, 'b'
convert to the three characters 'a', 0, 'b'; the 0 at index 1 does not truncate the
view and the terminator is left out. -/
theorem C10_string_view_witness :
    (∃ v w : List char,
      examples.lit_a0b.string_view (some 1) = some v ∧
      examples.arr_a0b.string_view (some 1) = some w ∧
      v.length = 3 ∧ w.length = 3 ∧
      (∀ i : Nat, i < 3 →
        ∃ c, v[i]? = some c ∧ examples.lit_a0b.operator_subscript false (i : Int) = .ok c) ∧
      (∀ i : Nat, i < 3 →
        ∃ c, w[i]? = some c ∧ examples.arr_a0b.operator_subscript false (i : Int) = .ok c) ∧
      v = examples.lit_a0b.c_str.take 3 ∧ w = examples.arr_a0b.c_str.take 3) ∧
    examples.lit_a0b.string_view (some 1) = some [97, 0, 98] ∧
    examples.arr_a0b.string_view (some 4) = some [97, 0, 98] :=
  ⟨C10_string_view 1 (by decide) false 3 examples.lit_a0b examples.arr_a0b, rfl, rfl⟩


/-! ## Lemmas on build modes, viability and the index sequence -/

theorem array_string_ext {N : Nat} (s t : array_string N) (h : s.c_str = t.c_str) :
    s = t := by
  cases s with
  | mk a =>
    cases t with
    | mk b =>
      have : a = b := Subtype.ext h
      rw [this]

theorem ctor_literal_mode (N : Nat) (l : string_literal N) :
    array_string.ctor_literal false N l = array_string.ctor_literal true N l := by
  obtain ⟨s, hs, hsc⟩ := ctor_literal_ok false N l
  obtain ⟨t, ht, htc⟩ := ctor_literal_ok true N l
  rw [hs, ht, array_string_ext s t (by rw [hsc, htc])]

theorem ctor_two_mode (N : Nat) (l r : Operand) :
    array_string.ctor_two false N l r = array_string.ctor_two true N l r := by
  cases l with
  | lit M l =>
    cases r with
    | lit K r =>
      by_cases hv : M < N ∧ K = N - M
      · obtain ⟨s, hs, hsc⟩ := ctor_two_literals_ok false N M K l r hv.1 hv.2
        obtain ⟨t, ht, htc⟩ := ctor_two_literals_ok true N M K l r hv.1 hv.2
        rw [hs, ht, array_string_ext s t (by rw [hsc, htc])]
      · simp [array_string.ctor_two, array_string.ctor_literals, hv]
    | arr K r => rfl
  | arr M l =>
    cases r with
    | lit K r =>
      by_cases hv : M < N ∧ K = N - M
      · obtain ⟨s, hs, hsc⟩ := ctor_two_array_literal_ok false N M K l r hv.1 hv.2
        obtain ⟨t, ht, htc⟩ := ctor_two_array_literal_ok true N M K l r hv.1 hv.2
        rw [hs, ht, array_string_ext s t (by rw [hsc, htc])]
      · rw [ctor_two_array_literal_not_viable false N M K l r hv,
          ctor_two_array_literal_not_viable true N M K l r hv]
    | arr K r =>
      by_cases hv : M < N ∧ K = N - M
      · obtain ⟨s, hs, hsc⟩ := ctor_two_arrays_ok false N M K l r hv.1 hv.2
        obtain ⟨t, ht, htc⟩ := ctor_two_arrays_ok true N M K l r hv.1 hv.2
        rw [hs, ht, array_string_ext s t (by rw [hsc, htc])]
      · simp [array_string.ctor_two, array_string.ctor_arrays, hv]

theorem mem_make_int_sequence (n : Nat) (i : Int) :
    i ∈ detail.make_int_sequence n ↔ ∃ k : Nat, k < n ∧ i = (k : Int) := by
  induction n with
  | zero => simp [detail.make_int_sequence, detail.make_int_sequence_]
  | succ n ih =>
    rw [make_int_sequence_succ, List.mem_append, ih]
    constructor
    · rintro (⟨k, hk, rfl⟩ | h)
      · exact ⟨k, by omega, rfl⟩
      · exact ⟨n, by omega, by simpa using h⟩
    · rintro ⟨k, hk, rfl⟩
      by_cases hkn : k < n
      · exact Or.inl ⟨k, hkn, rfl⟩
      · have : k = n := by omega
        subst this
        exact Or.inr (by simp)

theorem make_int_sequence_eq_range (n : Nat) :
    detail.make_int_sequence n = (List.range n).map (fun k : Nat => (k : Int)) := by
  induction n with
  | zero => rfl
  | succ n ih => rw [make_int_sequence_succ, ih, List.range_succ, List.map_append]; rfl

theorem make_int_sequence_at_depth_ok (n : Nat) :
    ∀ depth : Nat, n < depth →
      detail.make_int_sequence_at_depth depth (n : Int)
        = some (.ok (detail.make_int_sequence n)) := by
  induction n with
  | zero =>
    intro depth hd
    cases depth with
    | zero => omega
    | succ d => simp [detail.make_int_sequence_at_depth, detail.make_int_sequence,
        detail.make_int_sequence_]
  | succ n ih =>
    intro depth hd
    cases depth with
    | zero => omega
    | succ d =>
      have h1 : ¬ (((n + 1 : Nat) : Int) = 0) := by omega
      have h2 : ((n + 1 : Nat) : Int) ≥ 0 := by omega
      have h3 : ((n + 1 : Nat) : Int) - 1 = (n : Int) := by omega
      simp only [detail.make_int_sequence_at_depth, h1, h2, if_true, if_false, h3,
        ih d (by omega)]
      rw [make_int_sequence_succ]
      rfl

theorem ctor_literals_not_viable (nd : Bool) (N : Nat) {M K : Nat} (l : string_literal M)
    (r : string_literal K) (h : ¬ (M < N ∧ K = N - M)) :
    array_string.ctor_literals nd N l r = .error .ill_formed := by
  unfold array_string.ctor_literals
  rw [if_neg h]

theorem ctor_arrays_not_viable (nd : Bool) (N : Nat) {M K : Nat} (l : array_string M)
    (r : array_string K) (h : ¬ (M < N ∧ K = N - M)) :
    array_string.ctor_arrays nd N l r = .error .ill_formed := by
  unfold array_string.ctor_arrays
  rw [if_neg h]

/-- C11: the assertion helper is the bare expression when assertions are disabled and
also when its condition holds. Hence the checks-enabled and the checks-disabled build
return the same value: for literal construction from a buffer that ends in 0, for
operator[] on either type at an index in [0, N), for the converting constructor, for the
two-argument construction with any operands, and for every operator+ (raw operands
ending in 0). Each precondition bears on its own operation only; lengths 0 are
included. -/
theorem C11_checks_change_nothing (N1 N2 : Nat)
    (l_lit : string_literal N1) (r_lit : string_literal N2)
    (l_arr : array_string N1) (r_arr : array_string N2)
    (l_raw : Buf (N1 + 1)) (r_raw : Buf (N2 + 1)) (i : Int) :
    (∀ (α : Type) (CHECK : Bool) (EXPR : Result α),
      AK_TOOLKIT_ASSERTED_EXPRESSION true CHECK EXPR = EXPR) ∧
    (∀ (α : Type) (EXPR : Result α), AK_TOOLKIT_ASSERTED_EXPRESSION false true EXPR = EXPR) ∧
    (l_raw.val[N1]? = some 0 →
      string_literal.ctor false N1 l_raw = string_literal.ctor true N1 l_raw ∧
      string_literal.ctor true N1 l_raw = .ok ⟨l_raw⟩) ∧
    (l_raw.val[N1]? = some 0 →
      literal false (N1 + 1) l_raw = literal true (N1 + 1) l_raw ∧
      literal true (N1 + 1) l_raw = .ok ⟨l_raw⟩) ∧
    (0 ≤ i ∧ i < (N1 : Int) →
      l_lit.operator_subscript false i = l_lit.operator_subscript true i ∧
      ∃ c, l_lit.operator_subscript true i = .ok c) ∧
    (0 ≤ i ∧ i < (N1 : Int) →
      l_arr.operator_subscript false i = l_arr.operator_subscript true i ∧
      ∃ c, l_arr.operator_subscript true i = .ok c) ∧
    (array_string.ctor_literal false N1 l_lit = array_string.ctor_literal true N1 l_lit ∧
      ∃ s, array_string.ctor_literal true N1 l_lit = .ok s) ∧
    (∀ (N : Nat) (a b : Operand),
      array_string.ctor_two false N a b = array_string.ctor_two true N a b) ∧
    operator_plus_literal_literal false l_lit r_lit
      = operator_plus_literal_literal true l_lit r_lit ∧
    (l_raw.val[N1]? = some 0 →
      operator_plus_raw_literal false l_raw r_lit
        = operator_plus_raw_literal true l_raw r_lit) ∧
    (r_raw.val[N2]? = some 0 →
      operator_plus_literal_raw false l_lit r_raw
        = operator_plus_literal_raw true l_lit r_raw) ∧
    operator_plus_array_literal false l_arr r_lit
      = operator_plus_array_literal true l_arr r_lit ∧
    operator_plus_literal_array false l_lit r_arr
      = operator_plus_literal_array true l_lit r_arr ∧
    operator_plus_array_array false l_arr r_arr = operator_plus_array_array true l_arr r_arr ∧
    (l_raw.val[N1]? = some 0 →
      operator_plus_raw_array false l_raw r_arr = operator_plus_raw_array true l_raw r_arr) ∧
    (r_raw.val[N2]? = some 0 →
      operator_plus_array_raw false l_arr r_raw
        = operator_plus_array_raw true l_arr r_raw) := by
  have hsub : ∀ (a : List char), a.length = N1 + 1 → 0 ≤ i ∧ i < (N1 : Int) →
      AK_TOOLKIT_ASSERTED_EXPRESSION false (decide (i ≥ 0) && decide (i < (N1 : Int)))
          (subscript a i)
        = AK_TOOLKIT_ASSERTED_EXPRESSION true (decide (i ≥ 0) && decide (i < (N1 : Int)))
          (subscript a i) ∧
      ∃ c, AK_TOOLKIT_ASSERTED_EXPRESSION true (decide (i ≥ 0) && decide (i < (N1 : Int)))
          (subscript a i) = .ok c := by
    intro a ha hi
    have hlt : i.toNat < a.length := by omega
    have hcast : ((i.toNat : Nat) : Int) = i := Int.toNat_of_nonneg hi.1
    have hf := asserted_subscript_nat false N1 a i.toNat (by omega) hlt
    have ht := asserted_subscript_nat true N1 a i.toNat (by omega) hlt
    rw [hcast] at hf ht
    exact ⟨by rw [hf, ht], _, ht⟩
  refine ⟨?_, ?_, ?_, ?_, hsub _ l_lit._lit.property,
    hsub _ l_arr._array.property, ⟨ctor_literal_mode N1 l_lit, ?_⟩, ctor_two_mode,
    ctor_two_mode _ _ _, ?_, ?_, ?_, ctor_two_mode _ _ _, ctor_two_mode _ _ _, ?_, ?_⟩
  · intro α CHECK EXPR
    simp [AK_TOOLKIT_ASSERTED_EXPRESSION]
  · intro α EXPR
    simp [AK_TOOLKIT_ASSERTED_EXPRESSION]
  · intro hl0
    refine ⟨?_, string_literal_ctor_ok true N1 l_raw hl0⟩
    rw [string_literal_ctor_ok false N1 l_raw hl0, string_literal_ctor_ok true N1 l_raw hl0]
  · intro hl0
    refine ⟨?_, literal_ok true N1 l_raw hl0⟩
    rw [literal_ok false N1 l_raw hl0, literal_ok true N1 l_raw hl0]
  · obtain ⟨s, hs, _⟩ := ctor_literal_ok true N1 l_lit
    exact ⟨s, hs⟩
  · intro hl0
    simp only [operator_plus_raw_literal, literal_ok false N1 l_raw hl0,
      literal_ok true N1 l_raw hl0]
    exact ctor_two_mode _ _ _
  · intro hr0
    simp only [operator_plus_literal_raw, literal_ok false N2 r_raw hr0,
      literal_ok true N2 r_raw hr0]
    exact ctor_two_mode _ _ _
  · obtain ⟨ar, har, _⟩ := ctor_literal_ok true N2 r_lit
    have har2 : array_string.ctor_literal false N2 r_lit = .ok ar := by
      rw [ctor_literal_mode]; exact har
    simp only [operator_plus_array_literal, har, har2]
    exact ctor_two_mode _ _ _
  · intro hl0
    simp only [operator_plus_raw_array, literal_ok false N1 l_raw hl0,
      literal_ok true N1 l_raw hl0]
    exact ctor_two_mode _ _ _
  · intro hr0
    obtain ⟨ar, har, _⟩ := ctor_literal_ok true N2 ⟨r_raw⟩
    have har2 : array_string.ctor_literal false N2 ⟨r_raw⟩ = .ok ar := by
      rw [ctor_literal_mode]; exact har
    have har3 : array_string.ctor_literal true (N2 + 1 - 1) ⟨r_raw⟩ = .ok ar := har
    have har4 : array_string.ctor_literal false (N2 + 1 - 1) ⟨r_raw⟩ = .ok ar := har2
    simp only [operator_plus_array_raw, literal_ok false N2 r_raw hr0,
      literal_ok true N2 r_raw hr0, har3, har4]
    exact ctor_two_mode _ _ _

/-- C11 (witness): on "ab" and "cd" with index 1 both builds agree ("ab"[1] is 'b', raw
"ab" + "cd" is "abcd"), and so they do on the empty literal: its construction, its
conversion to a buffer value and the mixed construction from "ab" and a literal
reference to "cd". -/
theorem C11_checks_change_nothing_witness :
    (examples.lit_ab.operator_subscript false 1 = examples.lit_ab.operator_subscript true 1 ∧
      ∃ c, examples.lit_ab.operator_subscript true 1 = .ok c) ∧
    examples.lit_ab.operator_subscript false 1 = .ok 98 ∧
    examples.lit_ab.operator_subscript true 1 = .ok 98 ∧
    (operator_plus_raw_literal false examples.ab_raw examples.lit_cd).map array_string.c_str
      = .ok [97, 98, 99, 100, 0] ∧
    (operator_plus_raw_literal true examples.ab_raw examples.lit_cd).map array_string.c_str
      = .ok [97, 98, 99, 100, 0] ∧
    (string_literal.ctor false 0 examples.empty_raw
        = string_literal.ctor true 0 examples.empty_raw ∧
      string_literal.ctor true 0 examples.empty_raw = .ok ⟨examples.empty_raw⟩) ∧
    (array_string.ctor_literal false 0 examples.lit_empty
        = array_string.ctor_literal true 0 examples.lit_empty ∧
      ∃ s, array_string.ctor_literal true 0 examples.lit_empty = .ok s) ∧
    (array_string.ctor_literal false 0 examples.lit_empty).map array_string.c_str = .ok [0] ∧
    (array_string.ctor_two false 4 (.arr 2 examples.ab) (.lit 2 examples.lit_cd)).map
      array_string.c_str = .ok [97, 98, 99, 100, 0] ∧
    (array_string.ctor_two true 4 (.arr 2 examples.ab) (.lit 2 examples.lit_cd)).map
      array_string.c_str = .ok [97, 98, 99, 100, 0] :=
  ⟨(C11_checks_change_nothing 2 2 examples.lit_ab examples.lit_cd examples.ab examples.cd
      examples.ab_raw examples.cd_raw 1).2.2.2.2.1 ⟨by decide, by decide⟩,
    rfl, rfl, rfl, rfl,
    (C11_checks_change_nothing 0 2 examples.lit_empty examples.lit_cd examples.empty
      examples.cd examples.empty_raw examples.cd_raw 0).2.2.1 rfl,
    (C11_checks_change_nothing 0 2 examples.lit_empty examples.lit_cd examples.empty
      examples.cd examples.empty_raw examples.cd_raw 0).2.2.2.2.2.2.1,
    rfl, rfl, rfl⟩

/-- C12: the two-source constructor of array_string<N>, from a first operand of length M
and a second operand of length N - M, is available exactly when M < N, in either build
mode and for literal references as for buffer values; otherwise the construction does
not compile. An empty first operand with a non-empty second operand is accepted; an
empty second operand (M == N), also with both operands empty, is rejected. -/
theorem C12_two_source_guard (nd : Bool) (N M : Nat)
    (l1 : string_literal M) (r1 : string_literal (N - M))
    (l2 : array_string M) (r2 : array_string (N - M)) :
    ((∃ s, array_string.ctor_literals nd N l1 r1 = .ok s) ↔ M < N) ∧
    ((∃ s, array_string.ctor_arrays nd N l2 r2 = .ok s) ↔ M < N) ∧
    (¬ M < N → array_string.ctor_literals nd N l1 r1 = .error .ill_formed ∧
      array_string.ctor_arrays nd N l2 r2 = .error .ill_formed) ∧
    ((∃ s, array_string.ctor_two nd N (.lit M l1) (.lit (N - M) r1) = .ok s) ↔ M < N) ∧
    ((∃ s, array_string.ctor_two nd N (.arr M l2) (.arr (N - M) r2) = .ok s) ↔ M < N) ∧
    (array_string.ctor_two nd 2 (.arr 0 examples.empty) (.arr 2 examples.ab)).map
      array_string.c_str = .ok [97, 98, 0] ∧
    array_string.ctor_two nd 2 (.arr 2 examples.ab) (.arr 0 examples.empty)
      = .error .ill_formed ∧
    array_string.ctor_two nd 0 (.arr 0 examples.empty) (.arr 0 examples.empty)
      = .error .ill_formed ∧
    (array_string.ctor_two nd 2 (.lit 0 examples.lit_empty) (.lit 2 examples.lit_ab)).map
      array_string.c_str = .ok [97, 98, 0] ∧
    array_string.ctor_two nd 2 (.lit 2 examples.lit_ab) (.lit 0 examples.lit_empty)
      = .error .ill_formed ∧
    array_string.ctor_two nd 0 (.lit 0 examples.lit_empty) (.lit 0 examples.lit_empty)
      = .error .ill_formed := by
  have hlit : (∃ s, array_string.ctor_two nd N (.lit M l1) (.lit (N - M) r1) = .ok s)
      ↔ M < N := by
    constructor
    · rintro ⟨s, hs⟩
      by_contra hlt
      have hv : ¬ (M < N ∧ N - M = N - M) := fun h => hlt h.1
      have hs2 : array_string.ctor_literals nd N l1 r1 = .ok s := hs
      rw [ctor_literals_not_viable nd N l1 r1 hv] at hs2
      cases hs2
    · intro hlt
      obtain ⟨s, hs, _⟩ := ctor_two_literals_ok nd N M (N - M) l1 r1 hlt rfl
      exact ⟨s, hs⟩
  have harr : (∃ s, array_string.ctor_two nd N (.arr M l2) (.arr (N - M) r2) = .ok s)
      ↔ M < N := by
    constructor
    · rintro ⟨s, hs⟩
      by_contra hlt
      have hv : ¬ (M < N ∧ N - M = N - M) := fun h => hlt h.1
      have hs2 : array_string.ctor_arrays nd N l2 r2 = .ok s := hs
      rw [ctor_arrays_not_viable nd N l2 r2 hv] at hs2
      cases hs2
    · intro hlt
      obtain ⟨s, hs, _⟩ := ctor_two_arrays_ok nd N M (N - M) l2 r2 hlt rfl
      exact ⟨s, hs⟩
  refine ⟨hlit, harr, ?_, hlit, harr, ?_, ?_, ?_, ?_, ?_, ?_⟩
  · intro hlt
    have hv : ¬ (M < N ∧ N - M = N - M) := fun h => hlt h.1
    exact ⟨ctor_literals_not_viable nd N l1 r1 hv, ctor_arrays_not_viable nd N l2 r2 hv⟩
  all_goals cases nd <;> rfl

/-- C13: with checks enabled, constructing an array_string never triggers an index
contract violation. Every index of make_int_sequence<n> lies in [0, n), so each
operator[] call made by the converting constructor (any N ≥ 0) and by the two-source
constructor (M < N, sources of lengths M and N - M, literal references or buffer
values) returns a character, and the constructions succeed, also the one from a buffer
value and a literal reference, which converts the latter first; the two-argument
construction never ends in a contract violation, whatever its operands. -/
theorem C13_no_index_violation (N0 N M : Nat) (hMN : M < N) (l : string_literal N0)
    (l1 : string_literal M) (r1 : string_literal (N - M))
    (l2 : array_string M) (r2 : array_string (N - M)) :
    (∀ i ∈ detail.make_int_sequence N0, 0 ≤ i ∧ i < (N0 : Int) ∧
      ∃ c, l.operator_subscript false i = .ok c) ∧
    (∃ s, array_string.ctor_literal false N0 l = .ok s) ∧
    (∀ i ∈ detail.make_int_sequence M, 0 ≤ i ∧ i < (M : Int) ∧
      (∃ c, l1.operator_subscript false i = .ok c) ∧
      (∃ c, l2.operator_subscript false i = .ok c)) ∧
    (∀ i ∈ detail.make_int_sequence (N - M), 0 ≤ i ∧ i < ((N - M : Nat) : Int) ∧
      (∃ c, r1.operator_subscript false i = .ok c) ∧
      (∃ c, r2.operator_subscript false i = .ok c)) ∧
    (∃ s, array_string.ctor_two false N (.lit M l1) (.lit (N - M) r1) = .ok s) ∧
    (∃ s, array_string.ctor_two false N (.arr M l2) (.arr (N - M) r2) = .ok s) ∧
    (∃ s, array_string.ctor_two false N (.arr M l2) (.lit (N - M) r1) = .ok s) ∧
    (∀ (K : Nat) (a b : Operand),
      array_string.ctor_two false K a b ≠ .error .contract_violation) := by
  have hrange : ∀ (n : Nat) (i : Int), i ∈ detail.make_int_sequence n →
      0 ≤ i ∧ i < (n : Int) := by
    intro n i hi
    obtain ⟨k, hk, rfl⟩ := (mem_make_int_sequence n i).1 hi
    omega
  have hread : ∀ (n : Nat) (a : List char), a.length = n + 1 → ∀ i : Int,
      0 ≤ i ∧ i < (n : Int) →
      ∃ c, AK_TOOLKIT_ASSERTED_EXPRESSION false (decide (i ≥ 0) && decide (i < (n : Int)))
        (subscript a i) = .ok c := by
    intro n a ha i hi
    obtain ⟨c, _, hc⟩ := (asserted_subscript_checked n a ha i).2 hi
    exact ⟨c, hc⟩
  refine ⟨?_, ?_, ?_, ?_, ?_, ?_, ?_, ?_⟩
  · intro i hi
    have h := hrange N0 i hi
    exact ⟨h.1, h.2, hread N0 _ l._lit.property i h⟩
  · obtain ⟨s, hs, _⟩ := ctor_literal_ok false N0 l
    exact ⟨s, hs⟩
  · intro i hi
    have h := hrange M i hi
    exact ⟨h.1, h.2, hread M _ l1._lit.property i h, hread M _ l2._array.property i h⟩
  · intro i hi
    have h := hrange (N - M) i hi
    exact ⟨h.1, h.2, hread (N - M) _ r1._lit.property i h,
      hread (N - M) _ r2._array.property i h⟩
  · obtain ⟨s, hs, _⟩ := ctor_two_literals_ok false N M (N - M) l1 r1 hMN rfl
    exact ⟨s, hs⟩
  · obtain ⟨s, hs, _⟩ := ctor_two_arrays_ok false N M (N - M) l2 r2 hMN rfl
    exact ⟨s, hs⟩
  · obtain ⟨s, hs, _⟩ := ctor_two_array_literal_ok false N M (N - M) l2 r1 hMN rfl
    exact ⟨s, hs⟩
  · intro K a b
    cases a with
    | lit A l =>
      cases b with
      | lit B r =>
        by_cases hv : A < K ∧ B = K - A
        · obtain ⟨s, hs, _⟩ := ctor_two_literals_ok false K A B l r hv.1 hv.2
          rw [hs]
          exact fun h => by cases h
        · simp [array_string.ctor_two, array_string.ctor_literals, hv]
      | arr B r => simp [array_string.ctor_two]
    | arr A l =>
      cases b with
      | lit B r =>
        by_cases hv : A < K ∧ B = K - A
        · obtain ⟨s, hs, _⟩ := ctor_two_array_literal_ok false K A B l r hv.1 hv.2
          rw [hs]
          exact fun h => by cases h
        · rw [ctor_two_array_literal_not_viable false K A B l r hv]
          exact fun h => by cases h
      | arr B r =>
        by_cases hv : A < K ∧ B = K - A
        · obtain ⟨s, hs, _⟩ := ctor_two_arrays_ok false K A B l r hv.1 hv.2
          rw [hs]
          exact fun h => by cases h
        · simp [array_string.ctor_two, array_string.ctor_arrays, hv]

/-- C13 (witness): building "hello" from its literal reference and "abcd" from "ab" and
"cd" (two literal references, or a buffer value and a literal reference) with checks
enabled reads only the indices 0..4, respectively 0..1, and succeeds. -/
theorem C13_no_index_violation_witness :
    (2 < 4) ∧
    (∀ i ∈ detail.make_int_sequence 5, 0 ≤ i ∧ i < ((5 : Nat) : Int) ∧
      ∃ c, examples.hello.operator_subscript false i = .ok c) ∧
    detail.make_int_sequence 5 = [0, 1, 2, 3, 4] ∧
    (array_string.ctor_literal false 5 examples.hello).map array_string.c_str
      = .ok [104, 101, 108, 108, 111, 0] ∧
    (array_string.ctor_two false 4 (.lit 2 examples.lit_ab) (.lit 2 examples.lit_cd)).map
      array_string.c_str = .ok [97, 98, 99, 100, 0] ∧
    (array_string.ctor_two false 4 (.arr 2 examples.ab) (.lit 2 examples.lit_cd)).map
      array_string.c_str = .ok [97, 98, 99, 100, 0] :=
  ⟨by decide,
    (C13_no_index_violation 5 4 2 (by decide) examples.hello examples.lit_ab examples.lit_cd
      examples.ab examples.cd).1,
    rfl, rfl, rfl, rfl⟩

/-- A list of `b + 1` characters whose last one is 0 is its first `b` characters
followed by 0. -/
theorem eq_take_snoc_of_terminated (xs : List char) (b : Nat) (hlen : xs.length = b + 1)
    (h0 : xs[b]? = some 0) : xs = xs.take b ++ [0] := by
  have h1 : xs.take (b + 1) = xs := List.take_of_length_le (by omega)
  have h2 := List.take_succ (l := xs) (n := b)
  rw [h1, h0] at h2
  simpa using h2

/-- C14: an empty left operand is a left identity in content. For every non-empty source
B of length b > 0 and the empty source E of the same kind, in either build mode, the
two-source construction of array_string<b> from (E, B) succeeds and is the same value
(same size, same character at every index 0..b) as the single-source array_string<b>(B):
the converting constructor for a literal reference B, the copy for a buffer value B
(which, as every produced buffer value, has c_str()[b] == 0). The same holds for the
characters of E + B. -/
theorem C14_empty_left_identity (nd : Bool) (b : Nat) (hb : 0 < b)
    (E_lit : string_literal 0) (B_lit : string_literal b)
    (E_arr : array_string 0) (B_arr : array_string b)
    (hB : B_arr.c_str[b]? = some 0) :
    (∃ s t : array_string b,
      array_string.ctor_two nd b (.lit 0 E_lit) (.lit b B_lit) = .ok s ∧
      array_string.ctor_literal nd b B_lit = .ok t ∧
      s.size = t.size ∧ (∀ i, i ≤ b → s.c_str[i]? = t.c_str[i]?) ∧ s = t) ∧
    (∃ s t : array_string b,
      array_string.ctor_two nd b (.arr 0 E_arr) (.arr b B_arr) = .ok s ∧
      array_string.ctor_copy B_arr = .ok t ∧
      s.size = t.size ∧ (∀ i, i ≤ b → s.c_str[i]? = t.c_str[i]?) ∧ s = t) ∧
    (operator_plus_literal_literal nd E_lit B_lit).map array_string.c_str
      = (array_string.ctor_literal nd b B_lit).map array_string.c_str ∧
    (operator_plus_array_array nd E_arr B_arr).map array_string.c_str
      = (array_string.ctor_copy B_arr).map array_string.c_str := by
  obtain ⟨s1, hs1, hc1⟩ := ctor_two_literals_ok nd b 0 b E_lit B_lit hb rfl
  obtain ⟨t1, ht1, hd1⟩ := ctor_literal_ok nd b B_lit
  obtain ⟨s2, hs2, hc2⟩ := ctor_two_arrays_ok nd b 0 b E_arr B_arr hb rfl
  obtain ⟨u1, hu1, he1⟩ := ctor_two_literals_ok nd (0 + b) 0 b E_lit B_lit (by omega)
    (by omega)
  obtain ⟨u2, hu2, he2⟩ := ctor_two_arrays_ok nd (0 + b) 0 b E_arr B_arr (by omega)
    (by omega)
  have hBeq : B_arr.c_str = B_arr.c_str.take b ++ [0] :=
    eq_take_snoc_of_terminated B_arr.c_str b B_arr._array.property hB
  have e1 : s1 = t1 := array_string_ext s1 t1 (by rw [hc1, hd1]; simp)
  have e2 : s2 = B_arr := array_string_ext s2 B_arr (by
    rw [hc2]
    simp only [List.take_zero, List.nil_append]
    exact hBeq.symm)
  refine ⟨⟨s1, t1, hs1, ht1, rfl, ?_, e1⟩, ⟨s2, B_arr, hs2, rfl, rfl, ?_, e2⟩, ?_, ?_⟩
  · intro i _
    rw [e1]
  · intro i _
    rw [e2]
  · have h : operator_plus_literal_literal nd E_lit B_lit = .ok u1 := hu1
    rw [h, ht1]
    simp only [Except.map, he1, hd1, List.take_zero, List.nil_append]
  · have h : operator_plus_array_array nd E_arr B_arr = .ok u2 := hu2
    have hcopy : array_string.ctor_copy B_arr = .ok B_arr := rfl
    rw [h, hcopy]
    simp only [Except.map, he2, List.take_zero, List.nil_append]
    rw [← hBeq]

/-- C14 (witness): "" and "ab" as literal references and as buffer values; the
two-source construction of array_string<2> stores a, b and the terminator, as the
single-source one does. -/
theorem C14_empty_left_identity_witness :
    (0 < 2 ∧ examples.ab.c_str[2]? = some 0) ∧
    ((∃ s t : array_string 2,
      array_string.ctor_two false 2 (.lit 0 examples.lit_empty) (.lit 2 examples.lit_ab)
        = .ok s ∧
      array_string.ctor_literal false 2 examples.lit_ab = .ok t ∧
      s.size = t.size ∧ (∀ i, i ≤ 2 → s.c_str[i]? = t.c_str[i]?) ∧ s = t) ∧
    (∃ s t : array_string 2,
      array_string.ctor_two false 2 (.arr 0 examples.empty) (.arr 2 examples.ab) = .ok s ∧
      array_string.ctor_copy examples.ab = .ok t ∧
      s.size = t.size ∧ (∀ i, i ≤ 2 → s.c_str[i]? = t.c_str[i]?) ∧ s = t) ∧
    (operator_plus_literal_literal false examples.lit_empty examples.lit_ab).map
        array_string.c_str
      = (array_string.ctor_literal false 2 examples.lit_ab).map array_string.c_str ∧
    (operator_plus_array_array false examples.empty examples.ab).map array_string.c_str
      = (array_string.ctor_copy examples.ab).map array_string.c_str) ∧
    (array_string.ctor_two false 2 (.lit 0 examples.lit_empty) (.lit 2 examples.lit_ab)).map
      array_string.c_str = .ok [97, 98, 0] ∧
    (array_string.ctor_literal false 2 examples.lit_ab).map array_string.c_str
      = .ok [97, 98, 0] ∧
    (array_string.ctor_two false 2 (.arr 0 examples.empty) (.arr 2 examples.ab)).map
      array_string.c_str = .ok [97, 98, 0] :=
  ⟨⟨by decide, rfl⟩,
    C14_empty_left_identity false 2 (by decide) examples.lit_empty examples.lit_ab
      examples.empty examples.ab rfl,
    rfl, rfl, rfl⟩

/-- C15: for every n ≥ 0, make_int_sequence<n> is well-defined: the recursion from n down
to the specialisation for 0 ends within n + 1 nested instantiations and yields the
sequence 0, 1, ..., n - 1. This sequence has length exactly n, holds k at position k,
is strictly increasing and has no repeated index; make_int_sequence<0> is empty. -/
theorem C15_make_int_sequence (n : Nat) :
    (∀ depth : Nat, n < depth →
      detail.make_int_sequence_at_depth depth (n : Int)
        = some (.ok (detail.make_int_sequence n))) ∧
    detail.make_int_sequence n = (List.range n).map (fun k : Nat => (k : Int)) ∧
    (detail.make_int_sequence n).length = n ∧
    (∀ k : Nat, k < n → (detail.make_int_sequence n)[k]? = some (k : Int)) ∧
    (detail.make_int_sequence n).Pairwise (fun i j => i < j) ∧
    (detail.make_int_sequence n).Nodup ∧
    detail.make_int_sequence 0 = [] ∧
    detail.make_int_sequence_at_depth 1 0 = some (.ok []) ∧
    detail.make_int_sequence 4 = [0, 1, 2, 3] := by
  have hpw : (detail.make_int_sequence n).Pairwise (fun i j => i < j) := by
    rw [make_int_sequence_eq_range, List.pairwise_map]
    exact List.Pairwise.imp (fun h => by omega) (List.pairwise_lt_range n)
  refine ⟨make_int_sequence_at_depth_ok n, make_int_sequence_eq_range n,
    make_int_sequence_length n, ?_, hpw, ?_, rfl, rfl, rfl⟩
  · intro k hk
    rw [make_int_sequence_eq_range]
    simp [List.getElem?_range hk]
  · exact List.Pairwise.imp (fun h => ne_of_lt h) hpw

end ak_toolkit.static_str
